import Mathlib

/-! esphomelib: the MQTT component base class.

A shallow embedding of `src/esphomelib/mqtt/mqtt_component.cpp`.

* `std::map<std::string, std::string>` and the ArduinoJson `JsonObject` are
  association lists keyed by strings: `find` returns the first entry of a key,
  `operator[]=` overwrites that entry in place or appends a new one.
* `global_mqtt_client` and `App` are read-only for the component and are
  collected in `Globals`.
* The virtual methods of the device adapter (`friendly_name`, `component_type`,
  `send_discovery`, and the four lifecycle hooks) are collected in `Adapter`.
  The lifecycle hooks are calls out of the base class; they are recorded as
  events of the trace. Writes to base-class fields happen only through the
  member functions of `MQTTComponent`, which may be interleaved freely (`Op`).
-/

namespace esphomelib

/-! ## Association lists -/

/-- String-keyed association list. -/
abbrev StrMap (β : Type) := List (String × β)

namespace StrMap

/-- Value of the first entry with key `k` (`std::map::find`, `JsonObject::get`). -/
def find {β : Type} : StrMap β → String → Option β
  | [], _ => none
  | (k0, v0) :: rest, k => if k0 = k then some v0 else find rest k

/-- Assignment `m[k] = v`: overwrite the entry of `k`, or add one. -/
def set {β : Type} : StrMap β → String → β → StrMap β
  | [], k, v => [(k, v)]
  | (k0, v0) :: rest, k, v => if k0 = k then (k, v) :: rest else (k0, v0) :: set rest k v

/-- Whether the map has an entry with key `k`. -/
def contains {β : Type} (m : StrMap β) (k : String) : Bool := (find m k).isSome

/-- A run of assignments, performed left to right. -/
def setAll {β : Type} (m : StrMap β) (ws : List (String × β)) : StrMap β :=
  ws.foldl (fun acc w => set acc w.1 w.2) m

/-- The value assigned last to `k` by a run of assignments, if any. -/
def lastWrite {β : Type} : List (String × β) → String → Option β
  | [], _ => none
  | (k0, v0) :: rest, k =>
    match lastWrite rest k with
    | some v => some v
    | none => if k0 = k then some v0 else none

end StrMap

/-! ## Data model -/

/-- Values stored in a JSON document. The base class stores strings only; the
other constructors stand for what a device adapter may store. -/
inductive JsonValue where
  | str (s : String)
  | num (n : Int)
  | bool (b : Bool)
  | null
  deriving DecidableEq, Repr

/-- The `JsonObject &root` handed to the discovery builder. -/
abbrev JsonObject := StrMap JsonValue

/-- The struct `Availability` (topic and the two payloads). -/
structure Availability where
  topic : String
  payload_available : String
  payload_not_available : String
  deriving DecidableEq, Repr

/-- The struct `MQTTDiscoveryInfo`, fields `prefix` and `retain`. -/
structure MQTTDiscoveryInfo where
  discovery_prefix : String
  retain : Bool
  deriving DecidableEq, Repr

/-- The struct `SendDiscoveryConfig`. -/
structure SendDiscoveryConfig where
  state_topic : Bool
  command_topic : Bool
  platform : String
  deriving DecidableEq, Repr

/-- What the component reads from `global_mqtt_client`, `App` and `helpers.h`.
The helper functions and the whitelist constant are declared outside the
translated file and are taken as parameters. -/
structure Globals where
  topic_prefix : String
  discovery_info : MQTTDiscoveryInfo
  is_discovery_enabled : Bool
  availability : Availability
  app_name : String
  sanitize_string_whitelist : String → String → String
  to_lowercase_underscore : String → String
  HOSTNAME_CHARACTER_WHITELIST : String

/-- The virtual methods a device adapter supplies. `send_discovery` receives the
document and the config by reference and may change both. -/
structure Adapter where
  friendly_name : String
  component_type : String
  send_discovery : JsonObject → SendDiscoveryConfig → JsonObject × SendDiscoveryConfig

/-- The data members of `MQTTComponent`. -/
structure MQTTComponent where
  custom_topics_ : StrMap String
  retain_ : Bool
  discovery_enabled_ : Bool
  availability_ : Option Availability
  next_send_discovery_ : Bool
  deriving DecidableEq, Repr

/-- Calls that leave the base class, in the order they are made. -/
inductive Event where
  | setup_internal
  | setup
  | loop_internal
  | loop
  | add_on_connect_callback
  | publish_json (topic : String) (doc : JsonObject) (qos : Nat) (retain : Bool)
  deriving DecidableEq, Repr

/-! ## Member functions -/

namespace MQTTComponent

def set_retain (c : MQTTComponent) (retain : Bool) : MQTTComponent :=
  { c with retain_ := retain }

def get_retain (c : MQTTComponent) : Bool := c.retain_

def is_discovery_enabled (g : Globals) (c : MQTTComponent) : Bool :=
  c.discovery_enabled_ && g.is_discovery_enabled

def get_default_object_id (g : Globals) (a : Adapter) : String :=
  g.sanitize_string_whitelist (g.to_lowercase_underscore a.friendly_name)
    g.HOSTNAME_CHARACTER_WHITELIST

def get_discovery_topic (g : Globals) (a : Adapter) (c : MQTTComponent)
    (discovery_info : MQTTDiscoveryInfo) : String :=
  if !is_discovery_enabled g c then ""
  else
    let sanitized_name := g.sanitize_string_whitelist g.app_name g.HOSTNAME_CHARACTER_WHITELIST
    discovery_info.discovery_prefix ++ "/" ++ a.component_type ++ "/" ++ sanitized_name ++ "/" ++
      get_default_object_id g a ++ "/config"

def get_default_topic_for (g : Globals) (a : Adapter) (suffix : String) : String :=
  g.topic_prefix ++ "/" ++ a.component_type ++ "/" ++ get_default_object_id g a ++ "/" ++ suffix

def set_custom_topic (c : MQTTComponent) (key custom_topic : String) : MQTTComponent :=
  { c with custom_topics_ := StrMap.set c.custom_topics_ key custom_topic }

def set_custom_state_topic (c : MQTTComponent) (custom_state_topic : String) : MQTTComponent :=
  set_custom_topic c "state" custom_state_topic

def set_custom_command_topic (c : MQTTComponent) (custom_command_topic : String) :
    MQTTComponent :=
  set_custom_topic c "command" custom_command_topic

def get_topic_for (g : Globals) (a : Adapter) (c : MQTTComponent) (key : String) : String :=
  match StrMap.find c.custom_topics_ key with
  | some t => t
  | none => get_default_topic_for g a key

def get_state_topic (g : Globals) (a : Adapter) (c : MQTTComponent) : String :=
  get_topic_for g a c "state"

def get_command_topic (g : Globals) (a : Adapter) (c : MQTTComponent) : String :=
  get_topic_for g a c "command"

def disable_discovery (c : MQTTComponent) : MQTTComponent :=
  { c with discovery_enabled_ := false }

def set_availability (c : MQTTComponent) (topic payload_available payload_not_available : String) :
    MQTTComponent :=
  { c with availability_ := some (Availability.mk topic payload_available payload_not_available) }

def disable_availability (c : MQTTComponent) : MQTTComponent :=
  set_availability c "" "" ""

/-- The `SendDiscoveryConfig` that `send_discovery_` hands to the adapter hook:
`state_topic = true`, `command_topic = true`, `platform = "mqtt"`. -/
def default_config : SendDiscoveryConfig := SendDiscoveryConfig.mk true true "mqtt"

/-- The keys that the generic part of `send_discovery_` may assign. -/
def generic_keys : List String :=
  ["name", "platform", "state_topic", "command_topic", "availability_topic",
    "payload_available", "payload_not_available"]

/-- The three availability keys. -/
def availability_keys : List String :=
  ["availability_topic", "payload_available", "payload_not_available"]

/-- The assignments `root[key] = value` that the body of the lambda in
`send_discovery_` makes after the adapter hook returned `config`, in order. -/
def generic_writes (g : Globals) (a : Adapter) (c : MQTTComponent)
    (config : SendDiscoveryConfig) : List (String × JsonValue) :=
  [("name", JsonValue.str a.friendly_name)]
  ++ (if config.platform ≠ "mqtt" then [("platform", JsonValue.str config.platform)] else [])
  ++ (if config.state_topic then [("state_topic", JsonValue.str (get_state_topic g a c))] else [])
  ++ (if config.command_topic then
        [("command_topic", JsonValue.str (get_command_topic g a c))] else [])
  ++ (match c.availability_ with
      | none =>
        [("availability_topic", JsonValue.str g.availability.topic)]
        ++ (if g.availability.payload_available ≠ "online" then
              [("payload_available", JsonValue.str g.availability.payload_available)] else [])
        ++ (if g.availability.payload_not_available ≠ "offline" then
              [("payload_not_available", JsonValue.str g.availability.payload_not_available)]
            else [])
      | some av =>
        if av.topic ≠ "" then
          [("availability_topic", JsonValue.str av.topic)]
          ++ (if av.payload_available ≠ "online" then
                [("payload_available", JsonValue.str av.payload_available)] else [])
          ++ (if av.payload_not_available ≠ "offline" then
                [("payload_not_available", JsonValue.str av.payload_not_available)] else [])
        else [])

/-- The lambda passed to `send_json_message` by `send_discovery_`, as a function
of the document it is given: the adapter hook runs first on the default config,
then the generic fields are assigned. -/
def discovery_builder (g : Globals) (a : Adapter) (c : MQTTComponent) (root : JsonObject) :
    JsonObject :=
  let config : SendDiscoveryConfig := default_config
  let r := a.send_discovery root config
  let root := r.1
  let config := r.2
  let root := StrMap.set root "name" (JsonValue.str a.friendly_name)
  let root :=
    if config.platform ≠ "mqtt" then StrMap.set root "platform" (JsonValue.str config.platform)
    else root
  let root :=
    if config.state_topic then
      StrMap.set root "state_topic" (JsonValue.str (get_state_topic g a c))
    else root
  let root :=
    if config.command_topic then
      StrMap.set root "command_topic" (JsonValue.str (get_command_topic g a c))
    else root
  match c.availability_ with
  | none =>
    let root := StrMap.set root "availability_topic" (JsonValue.str g.availability.topic)
    let root :=
      if g.availability.payload_available ≠ "online" then
        StrMap.set root "payload_available" (JsonValue.str g.availability.payload_available)
      else root
    if g.availability.payload_not_available ≠ "offline" then
      StrMap.set root "payload_not_available" (JsonValue.str g.availability.payload_not_available)
    else root
  | some av =>
    if av.topic ≠ "" then
      let root := StrMap.set root "availability_topic" (JsonValue.str av.topic)
      let root :=
        if av.payload_available ≠ "online" then
          StrMap.set root "payload_available" (JsonValue.str av.payload_available)
        else root
      if av.payload_not_available ≠ "offline" then
        StrMap.set root "payload_not_available" (JsonValue.str av.payload_not_available)
      else root
    else root

/-- The call `global_mqtt_client->publish_json(topic, f, qos, retain)` made by
`send_json_message`. The client builds the document by running `f` on a fresh,
empty `JsonObject`. -/
def send_json_message (c : MQTTComponent) (topic : String) (f : JsonObject → JsonObject)
    (qos : Option Nat) (retain : Option Bool) : List Event :=
  let actual_retain := retain.getD c.retain_
  let actual_qos := qos.getD 0
  [Event.publish_json topic (f []) actual_qos actual_retain]

def send_discovery_ (g : Globals) (a : Adapter) (c : MQTTComponent) : List Event :=
  let discovery_info := g.discovery_info
  send_json_message c (get_discovery_topic g a c discovery_info) (discovery_builder g a c)
    (some 0) (some discovery_info.retain)

/-- The document `send_discovery_` publishes. -/
def discovery_document (g : Globals) (a : Adapter) (c : MQTTComponent) : JsonObject :=
  discovery_builder g a c []

/-- The lambda registered by `setup_` with `add_on_connect_callback`. -/
def on_connect_callback (c : MQTTComponent) : MQTTComponent :=
  { c with next_send_discovery_ := true }

def setup_ (c : MQTTComponent) : MQTTComponent × List Event :=
  (c, [Event.setup_internal, Event.setup, Event.add_on_connect_callback])

def loop_ (g : Globals) (a : Adapter) (c : MQTTComponent) : MQTTComponent × List Event :=
  let trace := [Event.loop_internal, Event.loop]
  if c.next_send_discovery_ then
    let trace := if is_discovery_enabled g c then trace ++ send_discovery_ g a c else trace
    ({ c with next_send_discovery_ := false }, trace)
  else (c, trace)

end MQTTComponent

/-! ## Runs of the component -/

/-- Whether an event is the publish of a discovery document. The base class calls
`publish_json` in `send_discovery_` only. -/
def Event.is_discovery_publish : Event → Bool
  | Event.publish_json _ _ _ _ => true
  | _ => false

/-- Number of discovery publishes in a trace. -/
def discovery_publishes (trace : List Event) : Nat :=
  (trace.filter Event.is_discovery_publish).length

/-- One step of the life of a component: a call of a member function, or an
invocation of the on-connect callback by the client. -/
inductive Op where
  | set_retain (retain : Bool)
  | set_custom_topic (key custom_topic : String)
  | set_custom_state_topic (custom_state_topic : String)
  | set_custom_command_topic (custom_command_topic : String)
  | set_availability (topic payload_available payload_not_available : String)
  | disable_availability
  | disable_discovery
  | setup_
  | loop_
  | on_connect
  deriving DecidableEq, Repr

open MQTTComponent in
/-- Effect of one step on the component, with the events it causes. -/
def step (g : Globals) (a : Adapter) (c : MQTTComponent) : Op → MQTTComponent × List Event
  | Op.set_retain r => (set_retain c r, [])
  | Op.set_custom_topic k t => (set_custom_topic c k t, [])
  | Op.set_custom_state_topic t => (set_custom_state_topic c t, [])
  | Op.set_custom_command_topic t => (set_custom_command_topic c t, [])
  | Op.set_availability t pa pna => (set_availability c t pa pna, [])
  | Op.disable_availability => (disable_availability c, [])
  | Op.disable_discovery => (disable_discovery c, [])
  | Op.setup_ => MQTTComponent.setup_ c
  | Op.loop_ => MQTTComponent.loop_ g a c
  | Op.on_connect => (on_connect_callback c, [])

/-- Effect of a sequence of steps, with the concatenated trace. -/
def run (g : Globals) (a : Adapter) : MQTTComponent → List Op → MQTTComponent × List Event
  | c, [] => (c, [])
  | c, op :: ops =>
    let r := step g a c op
    let rest := run g a r.1 ops
    (rest.1, r.2 ++ rest.2)

/-- The component after `n` calls of `loop_` in a row, with the trace. -/
def run_ticks (g : Globals) (a : Adapter) (c : MQTTComponent) (n : Nat) :
    MQTTComponent × List Event :=
  run g a c (List.replicate n Op.loop_)

namespace Sample

/-- A client with topic prefix "home", discovery under "homeassistant", and the
default availability "home/status" with payloads "online" and "offline". The
string helpers are stand-ins that return their argument. -/
def globals : Globals :=
  { topic_prefix := "home"
    discovery_info := MQTTDiscoveryInfo.mk "homeassistant" true
    is_discovery_enabled := true
    availability := Availability.mk "home/status" "online" "offline"
    app_name := "node"
    sanitize_string_whitelist := fun s _ => s
    to_lowercase_underscore := fun s => s
    HOSTNAME_CHARACTER_WHITELIST := "abcdefghijklmnopqrstuvwxyz0123456789_" }

/-- The same client with discovery switched off. -/
def globals_no_discovery : Globals :=
  { globals with is_discovery_enabled := false }

/-- The same client with its own availability payloads. -/
def globals_custom_payloads : Globals :=
  { globals with availability := Availability.mk "home/status" "up" "down" }

/-- An adapter whose `send_discovery` changes neither the document nor the config. -/
def plain_adapter : Adapter :=
  { friendly_name := "lamp"
    component_type := "light"
    send_discovery := fun root config => (root, config) }

/-- An adapter that fills in the keys the base class also uses, and one of its own. -/
def colliding_adapter : Adapter :=
  { friendly_name := "lamp"
    component_type := "light"
    send_discovery := fun root config =>
      (StrMap.set (StrMap.set (StrMap.set root "name" (JsonValue.str "mine"))
        "state_topic" (JsonValue.str "elsewhere")) "brightness" (JsonValue.bool true), config) }

/-- An adapter for a device without command topic and with its own platform. -/
def sensor_adapter : Adapter :=
  { friendly_name := "probe"
    component_type := "sensor"
    send_discovery := fun root config =>
      (StrMap.set root "unit_of_measurement" (JsonValue.str "V"),
        { config with command_topic := false, platform := "mqtt_json" }) }

/-- An adapter whose hook stores the three availability keys itself. -/
def availability_adapter : Adapter :=
  { friendly_name := "lamp"
    component_type := "light"
    send_discovery := fun root config =>
      (StrMap.set (StrMap.set (StrMap.set root "availability_topic" (JsonValue.str "mine"))
        "payload_available" (JsonValue.str "yes")) "payload_not_available" (JsonValue.str "no"),
        config) }

/-- A freshly constructed component whose resend flag is clear. -/
def idle : MQTTComponent :=
  { custom_topics_ := []
    retain_ := true
    discovery_enabled_ := true
    availability_ := none
    next_send_discovery_ := false }

/-- A component with a pending discovery resend. -/
def pending : MQTTComponent :=
  { idle with next_send_discovery_ := true }

/-- A component with a pending resend whose discovery was disabled. -/
def pending_disabled : MQTTComponent :=
  { idle with next_send_discovery_ := true, discovery_enabled_ := false }

end Sample

/-! ## Plain publishes -/

/-- The arguments of a call `global_mqtt_client->publish(topic, payload, qos, retain)`. -/
structure PublishCall where
  topic : String
  payload : String
  qos : Nat
  retain : Bool
  deriving DecidableEq, Repr

/-- The call of `publish` made by `send_message`. -/
def MQTTComponent.send_message (c : MQTTComponent) (topic payload : String)
    (qos : Option Nat) (retain : Option Bool) : PublishCall :=
  let actual_retain := retain.getD c.retain_
  let actual_qos := qos.getD 0
  PublishCall.mk topic payload actual_qos actual_retain

/-! ## String helpers -/

namespace Helpers

/-- Modelled from the spec: `to_lowercase_underscore` of `helpers.h`, which is not
among the translated sources. The spec says that the object id is the friendly
name "lower-cased"; the replacement of the other characters is left to
`sanitize_string_whitelist`. -/
def to_lowercase_underscore (s : String) : String :=
  String.mk (s.data.map Char.toLower)

/-- Modelled from the spec: `HOSTNAME_CHARACTER_WHITELIST` of `helpers.h`, which is
not among the translated sources. The spec keeps alphanumeric characters; its
example ("office-node" becomes "office_node") replaces the hyphen and produces
the underscore. -/
def HOSTNAME_CHARACTER_WHITELIST : String :=
  "abcdefghijklmnopqrstuvwxyzABCDEFGHIJKLMNOPQRSTUVWXYZ0123456789_"

/-- Modelled from the spec: `sanitize_string_whitelist` of `helpers.h`, which is not
among the translated sources. The spec says that characters outside the whitelist
are "replaced per a fixed whitelist policy"; its example replaces the blank and
the hyphen by an underscore. -/
def sanitize_string_whitelist (s whitelist : String) : String :=
  String.mk (s.data.map (fun ch => if ch ∈ whitelist.data then ch else '_'))

end Helpers

namespace Sample

/-- The client of the end-to-end example of the spec: topic prefix "home",
discovery prefix "homeassistant", firmware name "office-node", with the string
helpers as modelled in `Helpers`. -/
def office_node : Globals :=
  { topic_prefix := "home"
    discovery_info := MQTTDiscoveryInfo.mk "homeassistant" true
    is_discovery_enabled := true
    availability := Availability.mk "home/status" "online" "offline"
    app_name := "office-node"
    sanitize_string_whitelist := Helpers.sanitize_string_whitelist
    to_lowercase_underscore := Helpers.to_lowercase_underscore
    HOSTNAME_CHARACTER_WHITELIST := Helpers.HOSTNAME_CHARACTER_WHITELIST }

/-- The light of the end-to-end example, with an adapter hook `hook`. -/
def living_room_light
    (hook : JsonObject → SendDiscoveryConfig → JsonObject × SendDiscoveryConfig) : Adapter :=
  { friendly_name := "Living Room Light"
    component_type := "light"
    send_discovery := hook }

end Sample

/-! ## PCF8574 port expander

A shallow embedding of `src/esphomelib/io/pcf8574_component.cpp`. The three masks
are `uint16_t`; the operands of `<<`, `~`, `&` and `|` are promoted to `int`,
whose bits are kept as a natural number below `2 ^ 32`. -/

/-- Bits of the `int` value `1 << pin`. -/
def bit_of_pin (pin : Nat) : Nat := (1 <<< pin) % 2 ^ 32

/-- Bits of `~x` for an `int` value `x`. -/
def int_not (x : Nat) : Nat := (2 ^ 32 - 1) ^^^ x

/-- Conversion of an `int` value to `uint16_t`. -/
def to_uint16 (x : Nat) : Nat := x % 2 ^ 16

/-- The `mode` argument of `pin_mode_`: one of the three constants of the
header, or any other byte. -/
inductive PCF8574Mode where
  | PCF8574_INPUT
  | PCF8574_INPUT_PULLUP
  | PCF8574_OUTPUT
  | other (value : Nat)
  deriving DecidableEq, Repr

/-- Calls on the I2C bus (`parent_`). -/
inductive I2CCall where
  | begin_transmission_ (address : Nat)
  | write_ (address : Nat) (data : Nat)
  | end_transmission_ (address : Nat)
  deriving DecidableEq, Repr

/-- The data members of `PCF8574Component` that the translated functions use;
`failed_` is what `is_failed()` returns. -/
structure PCF8574Component where
  address_ : Nat
  pcf8575_ : Bool
  failed_ : Bool
  ddr_mask_ : Nat
  input_mask_ : Nat
  port_mask_ : Nat
  deriving DecidableEq, Repr

namespace PCF8574Component

/-- The local `uint16_t value` of `write_gpio_`:
`(input_mask_ & ~ddr_mask_) | port_mask_`. -/
def gpio_value (c : PCF8574Component) : Nat :=
  to_uint16 ((c.input_mask_ &&& int_not c.ddr_mask_) ||| c.port_mask_)

/-- The function `write_gpio_`: the component afterwards, the returned flag and
the calls on the bus. `ack` is what `end_transmission_` returns. -/
def write_gpio_ (c : PCF8574Component) (ack : Bool) :
    PCF8574Component × Bool × List I2CCall :=
  if c.failed_ then (c, false, [])
  else
    let value := gpio_value c
    let data := value &&& 0xFF
    let calls := [I2CCall.begin_transmission_ c.address_, I2CCall.write_ c.address_ data]
    let calls :=
      if c.pcf8575_ then
        let data := (value >>> 8) &&& 0xFF
        calls ++ [I2CCall.write_ c.address_ data]
      else calls
    (c, ack, calls ++ [I2CCall.end_transmission_ c.address_])

/-- The function `digital_write_`: the component afterwards and the calls on the bus. -/
def digital_write_ (c : PCF8574Component) (pin : Nat) (value : Bool) (ack : Bool) :
    PCF8574Component × List I2CCall :=
  let c :=
    if value then { c with port_mask_ := to_uint16 (c.port_mask_ ||| bit_of_pin pin) }
    else { c with port_mask_ := to_uint16 (c.port_mask_ &&& int_not (bit_of_pin pin)) }
  let r := write_gpio_ c ack
  (r.1, r.2.2)

/-- The function `pin_mode_`: the component afterwards and the calls on the bus;
`none` when `assert(false)` is reached. -/
def pin_mode_ (c : PCF8574Component) (pin : Nat) (mode : PCF8574Mode) (ack : Bool) :
    Option (PCF8574Component × List I2CCall) :=
  let updated : Option PCF8574Component :=
    match mode with
    | PCF8574Mode.PCF8574_INPUT =>
      some { c with
        ddr_mask_ := to_uint16 (c.ddr_mask_ &&& int_not (bit_of_pin pin))
        port_mask_ := to_uint16 (c.port_mask_ &&& int_not (bit_of_pin pin)) }
    | PCF8574Mode.PCF8574_INPUT_PULLUP =>
      some { c with
        ddr_mask_ := to_uint16 (c.ddr_mask_ &&& int_not (bit_of_pin pin))
        port_mask_ := to_uint16 (c.port_mask_ ||| bit_of_pin pin) }
    | PCF8574Mode.PCF8574_OUTPUT =>
      some { c with
        ddr_mask_ := to_uint16 (c.ddr_mask_ ||| bit_of_pin pin)
        port_mask_ := to_uint16 (c.port_mask_ &&& int_not (bit_of_pin pin)) }
    | PCF8574Mode.other _ => none
  match updated with
  | some c =>
    let r := write_gpio_ c ack
    some (r.1, r.2.2)
  | none => none

end PCF8574Component

namespace Sample

/-- A PCF8575 at address 0x21: pin 0 is an output driven high, pin 1 an input
with pull-up, pin 9 a plain input that was read high. -/
def expander : PCF8574Component :=
  { address_ := 0x21
    pcf8575_ := true
    failed_ := false
    ddr_mask_ := 0x0001
    input_mask_ := 0x0203
    port_mask_ := 0x0003 }

/-- The same expander after `mark_failed()`. -/
def failed_expander : PCF8574Component :=
  { expander with failed_ := true }

end Sample

/-! ## PCA9685 PWM driver

A shallow embedding of `loop`, `set_channel_value` and `create_channel` of
`src/esphomelib/output/pca9685_output_component.cpp`. Arithmetic on `uint8_t`
and `uint16_t` operands is done in `int` and converted back explicitly. -/

/-- Conversion of an `int` value to `uint16_t`. -/
def int_to_uint16 (x : Int) : Nat := (x % 65536).toNat

/-- Result of running a loop with a bound on the number of iterations. -/
inductive Outcome (α : Type) where
  | finished (result : α)
  | out_of_bounds
  | out_of_fuel
  deriving DecidableEq, Repr

/-- The call `write_bytes(register, data, len)`: the register and the first `len`
bytes of `data`. -/
structure WriteBytes where
  register : Nat
  bytes : List Nat
  deriving DecidableEq, Repr

/-- The data members of `PCA9685OutputComponent` that `loop` uses;
`pwm_amounts_` is the array `uint16_t pwm_amounts_[16]`. -/
structure PCA9685OutputComponent where
  min_channel_ : Nat
  max_channel_ : Nat
  update_ : Bool
  pwm_amounts_ : List Nat
  deriving DecidableEq, Repr

namespace PCA9685OutputComponent

/-- The members as the constructor leaves them. -/
def constructed : PCA9685OutputComponent :=
  { min_channel_ := 0xFF
    max_channel_ := 0x00
    update_ := true
    pwm_amounts_ := List.replicate 16 0 }

def set_channel_value (c : PCA9685OutputComponent) (channel value : Nat) :
    PCA9685OutputComponent :=
  let c := if c.pwm_amounts_.getD channel 0 ≠ value then { c with update_ := true } else c
  { c with pwm_amounts_ := c.pwm_amounts_.set channel value }

def create_channel (c : PCA9685OutputComponent) (channel : Nat) : PCA9685OutputComponent :=
  { c with
    min_channel_ := min c.min_channel_ channel
    max_channel_ := max c.max_channel_ channel }

/-- The local `num_channels` of `loop`: `max_channel_ - min_channel_ + 1` as `uint16_t`. -/
def num_channels (c : PCA9685OutputComponent) : Nat :=
  int_to_uint16 ((c.max_channel_ : Int) - (c.min_channel_ : Int) + 1)

/-- The initial value of `phase_begin` for a channel:
`uint16_t(channel - min_channel_) / num_channels * 4096`, converted to
`uint16_t`. Both operands of the division are non-negative. -/
def initial_phase_begin (c : PCA9685OutputComponent) (channel : Nat) : Nat :=
  int_to_uint16
    ((int_to_uint16 ((channel : Int) - (c.min_channel_ : Int)) / num_channels c * 4096 : Nat) : Int)

/-- The pair `(phase_begin, phase_end)` that the body of the loop computes for a
channel with the given amount. -/
def channel_phases (c : PCA9685OutputComponent) (channel amount : Nat) : Nat × Nat :=
  let phase_begin := initial_phase_begin c channel
  if amount = 0 then (phase_begin, 4096)
  else if amount ≥ 4096 then (4096, 0)
  else
    let phase_end := int_to_uint16 ((phase_begin : Int) + (amount : Int))
    if phase_end ≥ 4096 then (phase_begin, int_to_uint16 ((phase_end : Int) - 4096))
    else (phase_begin, phase_end)

/-- The statement `data[len++] = byte` on the buffer `uint8_t data[16*4]`;
`len` is a `uint8_t`. -/
def store (data : List Nat) (len byte : Nat) : Option (List Nat × Nat) :=
  if len < data.length then some (data.set len byte, (len + 1) % 256) else none

/-- The four bytes stored for a pair `(phase_begin, phase_end)`. -/
def phase_bytes (phases : Nat × Nat) : List Nat :=
  [phases.1 &&& 0xFF, (phases.1 >>> 8) &&& 0xFF, phases.2 &&& 0xFF, (phases.2 >>> 8) &&& 0xFF]

/-- One pass through the body of the `for` loop; `none` when an index leaves its
array. -/
def loop_body (c : PCA9685OutputComponent) (channel : Nat) (data : List Nat) (len : Nat) :
    Option (List Nat × Nat) :=
  match c.pwm_amounts_[channel]? with
  | none => none
  | some amount =>
    let phases := channel_phases c channel amount
    (store data len (phases.1 &&& 0xFF)).bind fun s1 =>
    (store s1.1 s1.2 ((phases.1 >>> 8) &&& 0xFF)).bind fun s2 =>
    (store s2.1 s2.2 (phases.2 &&& 0xFF)).bind fun s3 =>
    store s3.1 s3.2 ((phases.2 >>> 8) &&& 0xFF)

/-- The `for` loop over the `uint8_t channel`, run for at most `fuel` tests of its
condition. -/
def for_loop (c : PCA9685OutputComponent) :
    Nat → Nat → List Nat → Nat → Outcome (List Nat × Nat)
  | 0, _, _, _ => Outcome.out_of_fuel
  | fuel + 1, channel, data, len =>
    if channel ≤ c.max_channel_ then
      match loop_body c channel data len with
      | none => Outcome.out_of_bounds
      | some s => for_loop c fuel ((channel + 1) % 256) s.1 s.2
    else Outcome.finished (data, len)

/-- The function `loop`. `data` is the content of the local buffer before the
loop, `fuel` bounds the iterations. The result is the component afterwards and
the call of `write_bytes`, if any; the register is a `uint8_t`. -/
def loop (c : PCA9685OutputComponent) (data : List Nat) (fuel : Nat) :
    Outcome (PCA9685OutputComponent × Option WriteBytes) :=
  if c.min_channel_ = 0xFF ∨ c.update_ = false then Outcome.finished (c, none)
  else
    match for_loop c fuel c.min_channel_ data 0 with
    | Outcome.finished s =>
      Outcome.finished
        ({ c with update_ := false },
          some (WriteBytes.mk ((0x06 + 4 * c.min_channel_) % 256) (s.1.take s.2)))
    | Outcome.out_of_bounds => Outcome.out_of_bounds
    | Outcome.out_of_fuel => Outcome.out_of_fuel

/-- The encoding the claim describes for one channel: low and high byte of
`phase_begin`, then low and high byte of `phase_end`. -/
def encoded_channel (c : PCA9685OutputComponent) (channel : Nat) : List Nat :=
  let phases := channel_phases c channel (c.pwm_amounts_.getD channel 0)
  [phases.1 % 256, phases.1 / 256 % 256, phases.2 % 256, phases.2 / 256 % 256]

/-- The encodings of `count` channels in a row, starting at `channel`. -/
def encoded_channels (c : PCA9685OutputComponent) : Nat → Nat → List Nat
  | 0, _ => []
  | count + 1, channel => encoded_channel c channel ++ encoded_channels c count (channel + 1)

end PCA9685OutputComponent

namespace Sample

/-- A driver with the channels 2 and 5 created and the amounts 0, 1000 and 4096 on
the channels 2, 3 and 4. -/
def driver : PCA9685OutputComponent :=
  PCA9685OutputComponent.set_channel_value
    (PCA9685OutputComponent.set_channel_value
      (PCA9685OutputComponent.create_channel
        (PCA9685OutputComponent.create_channel PCA9685OutputComponent.constructed 2) 5)
      3 1000)
    4 4096

end Sample

/-! ## Lemmas on association lists -/

namespace StrMap

theorem find_set_self {β : Type} (m : StrMap β) (k : String) (v : β) :
    find (set m k v) k = some v := by
  induction m with
  | nil => simp [set, find]
  | cons e rest ih =>
    obtain ⟨k0, v0⟩ := e
    by_cases h : k0 = k
    · simp [set, find, h]
    · simp [set, find, h, ih]

theorem find_set_ne {β : Type} (m : StrMap β) (k k1 : String) (v : β) (h : k1 ≠ k) :
    find (set m k v) k1 = find m k1 := by
  have h2 : ¬ k = k1 := fun e => h e.symm
  induction m with
  | nil => simp [set, find, h2]
  | cons e rest ih =>
    obtain ⟨k0, v0⟩ := e
    by_cases h0 : k0 = k
    · have h3 : ¬ k0 = k1 := fun e => h2 (h0 ▸ e)
      simp [set, find, h0, h2]
    · by_cases h1 : k0 = k1
      · subst h1
        simp [set, find, h0]
      · simp [set, find, h0, h1, ih]

theorem find_set {β : Type} (m : StrMap β) (k k1 : String) (v : β) :
    find (set m k v) k1 = if k = k1 then some v else find m k1 := by
  by_cases h : k = k1
  · subst h
    simp [find_set_self]
  · have h2 : k1 ≠ k := fun e => h e.symm
    simp [h, find_set_ne m k k1 v h2]

theorem find_setAll {β : Type} (ws : List (String × β)) (m : StrMap β) (k : String) :
    find (setAll m ws) k = (lastWrite ws k).or (find m k) := by
  induction ws generalizing m with
  | nil => simp [setAll, lastWrite]
  | cons w rest ih =>
    obtain ⟨k0, v0⟩ := w
    have hstep : setAll m ((k0, v0) :: rest) = setAll (set m k0 v0) rest := by
      simp [setAll]
    rw [hstep, ih, find_set]
    cases hl : lastWrite rest k with
    | some v => simp [lastWrite, hl]
    | none =>
      by_cases h : k0 = k
      · simp [lastWrite, hl, h]
      · simp [lastWrite, hl, h]

theorem lastWrite_append {β : Type} (ws1 ws2 : List (String × β)) (k : String) :
    lastWrite (ws1 ++ ws2) k = (lastWrite ws2 k).or (lastWrite ws1 k) := by
  induction ws1 with
  | nil => cases h : lastWrite ws2 k <;> simp [lastWrite, h]
  | cons w rest ih =>
    obtain ⟨k0, v0⟩ := w
    have hcons : lastWrite ((k0, v0) :: (rest ++ ws2)) k =
        match lastWrite (rest ++ ws2) k with
        | some v => some v
        | none => if k0 = k then some v0 else none := rfl
    have hcons1 : lastWrite ((k0, v0) :: rest) k =
        match lastWrite rest k with
        | some v => some v
        | none => if k0 = k then some v0 else none := rfl
    rw [List.cons_append, hcons, hcons1, ih]
    cases h : lastWrite ws2 k <;> simp

theorem lastWrite_eq_none_of_not_mem {β : Type} (ws : List (String × β)) (k : String)
    (h : k ∉ ws.map Prod.fst) : lastWrite ws k = none := by
  induction ws with
  | nil => rfl
  | cons w rest ih =>
    obtain ⟨k0, v0⟩ := w
    simp only [List.map_cons, List.mem_cons, not_or] at h
    have h0 : ¬ k0 = k := fun e => h.1 e.symm
    simp [lastWrite, ih h.2, h0]

end StrMap

namespace MQTTComponent

/-- The builder is the adapter hook followed by the generic assignments. -/
theorem discovery_builder_eq (g : Globals) (a : Adapter) (c : MQTTComponent) (root : JsonObject) :
    discovery_builder g a c root =
      StrMap.setAll (a.send_discovery root default_config).1
        (generic_writes g a c (a.send_discovery root default_config).2) := by
  unfold discovery_builder generic_writes
  rcases hav : c.availability_ with _ | av <;>
    simp only [StrMap.setAll, List.foldl_append, List.foldl_cons, List.foldl_nil] <;>
    split_ifs <;> simp

/-- A key of the final document holds the value the generic code assigned to it,
and otherwise what the adapter hook left there. -/
theorem find_discovery_builder (g : Globals) (a : Adapter) (c : MQTTComponent)
    (root : JsonObject) (k : String) :
    StrMap.find (discovery_builder g a c root) k =
      (StrMap.lastWrite (generic_writes g a c (a.send_discovery root default_config).2) k).or
        (StrMap.find (a.send_discovery root default_config).1 k) := by
  rw [discovery_builder_eq, StrMap.find_setAll]

/-- The generic code assigns no key outside `generic_keys`. -/
theorem lastWrite_other (g : Globals) (a : Adapter) (c : MQTTComponent)
    (cfg : SendDiscoveryConfig) (k : String) (hk : k ∉ generic_keys) :
    StrMap.lastWrite (generic_writes g a c cfg) k = none := by
  simp only [generic_keys, List.mem_cons, List.mem_singleton, not_or, List.not_mem_nil,
    or_false] at hk
  obtain ⟨h1, h2, h3, h4, h5, h6, h7⟩ := hk
  have e1 := Ne.symm h1
  have e2 := Ne.symm h2
  have e3 := Ne.symm h3
  have e4 := Ne.symm h4
  have e5 := Ne.symm h5
  have e6 := Ne.symm h6
  have e7 := Ne.symm h7
  unfold generic_writes
  rcases hav : c.availability_ with _ | av <;>
    simp only [StrMap.lastWrite_append] <;> split_ifs <;>
    simp [StrMap.lastWrite, e1, e2, e3, e4, e5, e6, e7]

theorem lastWrite_name (g : Globals) (a : Adapter) (c : MQTTComponent)
    (cfg : SendDiscoveryConfig) :
    StrMap.lastWrite (generic_writes g a c cfg) "name" = some (JsonValue.str a.friendly_name) := by
  unfold generic_writes
  rcases hav : c.availability_ with _ | av <;>
    simp only [StrMap.lastWrite_append] <;> split_ifs <;> simp [StrMap.lastWrite]

theorem lastWrite_platform (g : Globals) (a : Adapter) (c : MQTTComponent)
    (cfg : SendDiscoveryConfig) :
    StrMap.lastWrite (generic_writes g a c cfg) "platform" =
      if cfg.platform ≠ "mqtt" then some (JsonValue.str cfg.platform) else none := by
  unfold generic_writes
  rcases hav : c.availability_ with _ | av <;>
    simp only [StrMap.lastWrite_append] <;> split_ifs <;> simp [StrMap.lastWrite]

theorem lastWrite_state_topic (g : Globals) (a : Adapter) (c : MQTTComponent)
    (cfg : SendDiscoveryConfig) :
    StrMap.lastWrite (generic_writes g a c cfg) "state_topic" =
      if cfg.state_topic then some (JsonValue.str (get_state_topic g a c)) else none := by
  unfold generic_writes
  rcases hav : c.availability_ with _ | av <;>
    simp only [StrMap.lastWrite_append] <;> split_ifs <;> simp [StrMap.lastWrite]

theorem lastWrite_command_topic (g : Globals) (a : Adapter) (c : MQTTComponent)
    (cfg : SendDiscoveryConfig) :
    StrMap.lastWrite (generic_writes g a c cfg) "command_topic" =
      if cfg.command_topic then some (JsonValue.str (get_command_topic g a c)) else none := by
  unfold generic_writes
  rcases hav : c.availability_ with _ | av <;>
    simp only [StrMap.lastWrite_append] <;> split_ifs <;> simp [StrMap.lastWrite]

/-- The availability the generic code resolves: the override when there is one,
the default of the client otherwise. -/
theorem lastWrite_availability_topic (g : Globals) (a : Adapter) (c : MQTTComponent)
    (cfg : SendDiscoveryConfig) :
    StrMap.lastWrite (generic_writes g a c cfg) "availability_topic" =
      match c.availability_ with
      | none => some (JsonValue.str g.availability.topic)
      | some av => if av.topic ≠ "" then some (JsonValue.str av.topic) else none := by
  unfold generic_writes
  rcases hav : c.availability_ with _ | av <;>
    simp only [StrMap.lastWrite_append] <;> split_ifs <;> simp [StrMap.lastWrite]

theorem lastWrite_payload_available (g : Globals) (a : Adapter) (c : MQTTComponent)
    (cfg : SendDiscoveryConfig) :
    StrMap.lastWrite (generic_writes g a c cfg) "payload_available" =
      match c.availability_ with
      | none =>
        if g.availability.payload_available ≠ "online" then
          some (JsonValue.str g.availability.payload_available) else none
      | some av =>
        if av.topic ≠ "" ∧ av.payload_available ≠ "online" then
          some (JsonValue.str av.payload_available) else none := by
  unfold generic_writes
  rcases hav : c.availability_ with _ | av <;>
    simp only [StrMap.lastWrite_append] <;> split_ifs <;> simp_all [StrMap.lastWrite]

theorem lastWrite_payload_not_available (g : Globals) (a : Adapter) (c : MQTTComponent)
    (cfg : SendDiscoveryConfig) :
    StrMap.lastWrite (generic_writes g a c cfg) "payload_not_available" =
      match c.availability_ with
      | none =>
        if g.availability.payload_not_available ≠ "offline" then
          some (JsonValue.str g.availability.payload_not_available) else none
      | some av =>
        if av.topic ≠ "" ∧ av.payload_not_available ≠ "offline" then
          some (JsonValue.str av.payload_not_available) else none := by
  unfold generic_writes
  rcases hav : c.availability_ with _ | av <;>
    simp only [StrMap.lastWrite_append] <;> split_ifs <;> simp_all [StrMap.lastWrite]

end MQTTComponent

/-! ## Lemmas on runs -/

open MQTTComponent

theorem discovery_publishes_append (t1 t2 : List Event) :
    discovery_publishes (t1 ++ t2) = discovery_publishes t1 + discovery_publishes t2 := by
  simp [discovery_publishes]

theorem run_cons (g : Globals) (a : Adapter) (c : MQTTComponent) (op : Op) (ops : List Op) :
    run g a c (op :: ops) =
      ((run g a (step g a c op).1 ops).1, (step g a c op).2 ++ (run g a (step g a c op).1 ops).2) :=
  rfl

theorem run_append (g : Globals) (a : Adapter) (c : MQTTComponent) (ops1 ops2 : List Op) :
    run g a c (ops1 ++ ops2) =
      ((run g a (run g a c ops1).1 ops2).1,
        (run g a c ops1).2 ++ (run g a (run g a c ops1).1 ops2).2) := by
  induction ops1 generalizing c with
  | nil => simp [run]
  | cons op rest ih => simp [run_cons, ih, List.append_assoc]

/-- A tick leaves the resend flag clear. -/
theorem loop_flag (g : Globals) (a : Adapter) (c : MQTTComponent) :
    (loop_ g a c).1.next_send_discovery_ = false := by
  unfold loop_
  cases h : c.next_send_discovery_ <;> simp [h]

/-- The number of discovery publishes of one tick. -/
theorem loop_publishes (g : Globals) (a : Adapter) (c : MQTTComponent) :
    discovery_publishes (loop_ g a c).2 =
      if c.next_send_discovery_ && is_discovery_enabled g c then 1 else 0 := by
  unfold loop_
  cases h : c.next_send_discovery_ <;> cases he : is_discovery_enabled g c <;>
    simp [discovery_publishes, send_discovery_, send_json_message, Event.is_discovery_publish]

/-- A tick that finds the flag clear changes nothing and publishes nothing. -/
theorem loop_idle (g : Globals) (a : Adapter) (c : MQTTComponent)
    (h : c.next_send_discovery_ = false) :
    loop_ g a c = (c, [Event.loop_internal, Event.loop]) := by
  simp [loop_, h]

/-- Ticks that start with the flag clear publish nothing and keep it clear. -/
theorem run_ticks_idle (g : Globals) (a : Adapter) (n : Nat) (c : MQTTComponent)
    (h : c.next_send_discovery_ = false) :
    (run_ticks g a c n).1 = c ∧ discovery_publishes (run_ticks g a c n).2 = 0 := by
  induction n with
  | zero => simp [run_ticks, run, discovery_publishes]
  | succ n ih =>
    have hs : step g a c Op.loop_ = (c, [Event.loop_internal, Event.loop]) := by
      simp [step, loop_idle g a c h]
    have hr : run_ticks g a c (n + 1) =
        ((run_ticks g a c n).1, [Event.loop_internal, Event.loop] ++ (run_ticks g a c n).2) := by
      simp [run_ticks, List.replicate_succ, run_cons, hs]
    rw [hr]
    refine ⟨ih.1, ?_⟩
    rw [discovery_publishes_append, ih.2]
    simp [discovery_publishes, Event.is_discovery_publish]

theorem run_ticks_succ (g : Globals) (a : Adapter) (c : MQTTComponent) (n : Nat) :
    run_ticks g a c (n + 1) =
      ((run_ticks g a (loop_ g a c).1 n).1, (loop_ g a c).2 ++ (run_ticks g a (loop_ g a c).1 n).2) := by
  simp [run_ticks, List.replicate_succ, run_cons, step]

/-- What a step does to the flag `discovery_enabled_`. -/
theorem step_discovery_enabled (g : Globals) (a : Adapter) (c : MQTTComponent) (op : Op) :
    (step g a c op).1.discovery_enabled_ =
      if op = Op.disable_discovery then false else c.discovery_enabled_ := by
  cases op <;>
    simp [step, set_retain, set_custom_topic, set_custom_state_topic, set_custom_command_topic,
      set_availability, disable_availability, disable_discovery, setup_, on_connect_callback]
  unfold loop_
  cases h : c.next_send_discovery_ <;> simp

/-- What a step does to the flag `next_send_discovery_`. -/
theorem step_next_send_discovery (g : Globals) (a : Adapter) (c : MQTTComponent) (op : Op) :
    (step g a c op).1.next_send_discovery_ =
      if op = Op.loop_ then false
      else if op = Op.on_connect then true
      else c.next_send_discovery_ := by
  cases op <;>
    simp [step, set_retain, set_custom_topic, set_custom_state_topic, set_custom_command_topic,
      set_availability, disable_availability, disable_discovery, setup_, on_connect_callback,
      loop_flag]

/-- The number of discovery publishes of a step. -/
theorem step_publishes (g : Globals) (a : Adapter) (c : MQTTComponent) (op : Op) :
    discovery_publishes (step g a c op).2 =
      if op = Op.loop_ ∧ c.next_send_discovery_ = true ∧ is_discovery_enabled g c = true then 1
      else 0 := by
  cases op <;>
    simp [step, setup_, discovery_publishes, Event.is_discovery_publish]
  have h := loop_publishes g a c
  simp only [discovery_publishes, Bool.and_eq_true] at h
  exact h

theorem discovery_publishes_run_cons (g : Globals) (a : Adapter) (c : MQTTComponent) (op : Op)
    (ops : List Op) :
    discovery_publishes (run g a c (op :: ops)).2 =
      discovery_publishes (step g a c op).2 +
        discovery_publishes (run g a (step g a c op).1 ops).2 := by
  rw [run_cons, discovery_publishes_append]

/-- Once discovery is disabled for the client or the component, it stays so. -/
theorem step_keeps_disabled (g : Globals) (a : Adapter) (c : MQTTComponent) (op : Op)
    (h : is_discovery_enabled g c = false) :
    is_discovery_enabled g (step g a c op).1 = false := by
  unfold is_discovery_enabled at h ⊢
  rw [step_discovery_enabled]
  split_ifs
  · simp
  · exact h

theorem run_keeps_disabled (g : Globals) (a : Adapter) (ops : List Op) (c : MQTTComponent)
    (h : is_discovery_enabled g c = false) :
    is_discovery_enabled g (run g a c ops).1 = false ∧
      discovery_publishes (run g a c ops).2 = 0 := by
  induction ops generalizing c with
  | nil => simp [run, h, discovery_publishes]
  | cons op rest ih =>
    have hs := ih (step g a c op).1 (step_keeps_disabled g a c op h)
    refine ⟨?_, ?_⟩
    · rw [run_cons]
      exact hs.1
    · rw [discovery_publishes_run_cons, hs.2, step_publishes]
      simp [h]

/-! ## Topic resolution -/

/-- C1: `get_topic_for k` returns the custom topic stored for `k` verbatim (the
empty string included) whatever the client's topic prefix and other globals are,
and without a custom topic it returns
`topic_prefix + "/" + component_type() + "/" + get_default_object_id() + "/" + k`.
After `set_custom_topic k t` the topic for `k` is `t` and the topic for every
other key is unchanged. -/
theorem get_topic_for_spec (g : Globals) (a : Adapter) (c : MQTTComponent) (k : String) :
    (∀ t, StrMap.find c.custom_topics_ k = some t →
        ∀ (g2 : Globals) (a2 : Adapter), get_topic_for g2 a2 c k = t) ∧
    (StrMap.find c.custom_topics_ k = none →
        get_topic_for g a c k =
          g.topic_prefix ++ "/" ++ a.component_type ++ "/" ++ get_default_object_id g a ++ "/" ++ k) ∧
    (∀ t, StrMap.find (set_custom_topic c k t).custom_topics_ k = some t ∧
        get_topic_for g a (set_custom_topic c k t) k = t) ∧
    (∀ t k1, k1 ≠ k →
        get_topic_for g a (set_custom_topic c k t) k1 = get_topic_for g a c k1) := by
  refine ⟨?_, ?_, ?_, ?_⟩
  · intro t h g2 a2
    simp [get_topic_for, h]
  · intro h
    simp [get_topic_for, h, get_default_topic_for]
  · intro t
    simp [get_topic_for, set_custom_topic, StrMap.find_set_self]
  · intro t k1 h
    simp [get_topic_for, set_custom_topic, StrMap.find_set_ne _ _ _ _ h]

/-- Witness of C1 on the sample lamp: the state topic is overridden by the empty
string, the command topic keeps its default. -/
theorem get_topic_for_spec_witness :
    get_topic_for Sample.globals_custom_payloads Sample.sensor_adapter
        (set_custom_topic Sample.idle "state" "") "state" = "" ∧
    get_topic_for Sample.globals Sample.plain_adapter Sample.idle "command" =
        "home/light/lamp/command" ∧
    get_topic_for Sample.globals Sample.plain_adapter
        (set_custom_topic Sample.idle "state" "") "command" = "home/light/lamp/command" :=
  ⟨(get_topic_for_spec Sample.globals Sample.plain_adapter
      (set_custom_topic Sample.idle "state" "") "state").1 "" (by decide) _ _,
    (get_topic_for_spec Sample.globals Sample.plain_adapter Sample.idle "command").2.1 (by decide),
    ((get_topic_for_spec Sample.globals Sample.plain_adapter Sample.idle "state").2.2.2 ""
      "command" (by decide)).trans
      ((get_topic_for_spec Sample.globals Sample.plain_adapter Sample.idle "command").2.1
        (by decide))⟩

/-! ## Discovery timing -/

/-- C2: for every `N ≥ 1`, `N` ticks in a row make at most one discovery publish:
any single tick leaves `next_send_discovery_` clear, so the flag is clear after
the `N` ticks and the ticks after the first one publish nothing. -/
theorem ticks_publish_at_most_once (g : Globals) (a : Adapter) (c : MQTTComponent) (N : Nat)
    (hN : 1 ≤ N) :
    discovery_publishes (run_ticks g a c N).2 ≤ 1 ∧
    (loop_ g a c).1.next_send_discovery_ = false ∧
    (run_ticks g a c N).1.next_send_discovery_ = false ∧
    discovery_publishes (run_ticks g a c N).2 = discovery_publishes (loop_ g a c).2 ∧
    ∀ n, discovery_publishes (run_ticks g a (loop_ g a c).1 n).2 = 0 := by
  obtain ⟨n, rfl⟩ : ∃ n, N = n + 1 := ⟨N - 1, by omega⟩
  have hidle := run_ticks_idle g a n (loop_ g a c).1 (loop_flag g a c)
  have hcount : discovery_publishes (run_ticks g a c (n + 1)).2 =
      discovery_publishes (loop_ g a c).2 := by
    rw [run_ticks_succ, discovery_publishes_append, hidle.2, Nat.add_zero]
  refine ⟨?_, loop_flag g a c, ?_, hcount, ?_⟩
  · rw [hcount, loop_publishes]
    split_ifs <;> simp
  · rw [run_ticks_succ]
    show (run_ticks g a (loop_ g a c).1 n).1.next_send_discovery_ = false
    rw [hidle.1]
    exact loop_flag g a c
  · intro m
    exact (run_ticks_idle g a m (loop_ g a c).1 (loop_flag g a c)).2

/-- Witness of C2: five ticks of a component with a pending resend publish once. -/
theorem ticks_publish_at_most_once_witness :
    discovery_publishes (run_ticks Sample.globals Sample.plain_adapter Sample.pending 5).2 ≤ 1 ∧
    discovery_publishes (run_ticks Sample.globals Sample.plain_adapter Sample.pending 5).2 = 1 :=
  ⟨(ticks_publish_at_most_once Sample.globals Sample.plain_adapter Sample.pending 5
      (by decide)).1, by decide⟩

/-- C4: when discovery is disabled for the client or for the component, no run of
reconnect events, ticks and other member calls ever makes a discovery publish,
and `get_discovery_topic` returns the empty string, at the start and after any
run. -/
theorem disabled_discovery_is_silent (g : Globals) (a : Adapter) (c : MQTTComponent)
    (h : g.is_discovery_enabled = false ∨ c.discovery_enabled_ = false) (ops : List Op)
    (info : MQTTDiscoveryInfo) :
    discovery_publishes (run g a c ops).2 = 0 ∧
    (∀ e ∈ (run g a c ops).2, e.is_discovery_publish = false) ∧
    get_discovery_topic g a c info = "" ∧
    get_discovery_topic g a (run g a c ops).1 info = "" := by
  have hdis : is_discovery_enabled g c = false := by
    rcases h with h | h <;> simp [is_discovery_enabled, h]
  have hrun := run_keeps_disabled g a ops c hdis
  refine ⟨hrun.2, ?_, ?_, ?_⟩
  · intro e he
    have h0 := hrun.2
    unfold discovery_publishes at h0
    rw [List.length_eq_zero, List.filter_eq_nil_iff] at h0
    simpa using h0 e he
  · simp [get_discovery_topic, hdis]
  · simp [get_discovery_topic, hrun.1]

/-- Witness of C4: with discovery off for the client, reconnect events and ticks
publish nothing; the same holds for a component whose own discovery is off. -/
theorem disabled_discovery_is_silent_witness :
    discovery_publishes (run Sample.globals_no_discovery Sample.plain_adapter Sample.pending
        [Op.setup_, Op.loop_, Op.on_connect, Op.loop_, Op.on_connect, Op.loop_]).2 = 0 ∧
    get_discovery_topic Sample.globals Sample.plain_adapter Sample.pending_disabled
        Sample.globals.discovery_info = "" :=
  ⟨(disabled_discovery_is_silent Sample.globals_no_discovery Sample.plain_adapter Sample.pending
      (Or.inl rfl) [Op.setup_, Op.loop_, Op.on_connect, Op.loop_, Op.on_connect, Op.loop_]
      Sample.globals.discovery_info).1,
    (disabled_discovery_is_silent Sample.globals Sample.plain_adapter Sample.pending_disabled
      (Or.inr rfl) [] Sample.globals.discovery_info).2.2.1⟩

/-- C5, as stated, fails: a tick of a component with a pending resend and discovery
disabled clears the flag although nothing is published. -/
theorem flag_cleared_without_publish :
    Sample.pending_disabled.next_send_discovery_ = true ∧
    (loop_ Sample.globals Sample.plain_adapter Sample.pending_disabled).1.next_send_discovery_
      = false ∧
    discovery_publishes (loop_ Sample.globals Sample.plain_adapter Sample.pending_disabled).2
      = 0 :=
  ⟨rfl, rfl, by decide⟩

/-- C5, amended: a tick that finds `next_send_discovery_` set clears it; that tick
makes a discovery publish when discovery is enabled for the client and the
component, and makes none, still clearing the flag, when it is disabled. No step
other than `loop_` clears the flag. -/
theorem flag_cleared_by_tick_only (g : Globals) (a : Adapter) (c : MQTTComponent)
    (hflag : c.next_send_discovery_ = true) :
    (loop_ g a c).1.next_send_discovery_ = false ∧
    (is_discovery_enabled g c = true → discovery_publishes (loop_ g a c).2 = 1) ∧
    (is_discovery_enabled g c = false → discovery_publishes (loop_ g a c).2 = 0) ∧
    (∀ op, op ≠ Op.loop_ → (step g a c op).1.next_send_discovery_ = true) := by
  refine ⟨loop_flag g a c, ?_, ?_, ?_⟩
  · intro h
    simp [loop_publishes, hflag, h]
  · intro h
    simp [loop_publishes, hflag, h]
  · intro op hop
    rw [step_next_send_discovery, if_neg hop]
    split_ifs
    · rfl
    · exact hflag

/-- Witness of the amended C5: the tick of an enabled component with a pending
resend publishes once and clears the flag; disabling discovery keeps the flag. -/
theorem flag_cleared_by_tick_only_witness :
    (loop_ Sample.globals Sample.plain_adapter Sample.pending).1.next_send_discovery_ = false ∧
    discovery_publishes (loop_ Sample.globals Sample.plain_adapter Sample.pending).2 = 1 ∧
    (step Sample.globals Sample.plain_adapter Sample.pending
      Op.disable_discovery).1.next_send_discovery_ = true :=
  ⟨(flag_cleared_by_tick_only Sample.globals Sample.plain_adapter Sample.pending rfl).1,
    (flag_cleared_by_tick_only Sample.globals Sample.plain_adapter Sample.pending rfl).2.1 rfl,
    (flag_cleared_by_tick_only Sample.globals Sample.plain_adapter Sample.pending rfl).2.2.2
      Op.disable_discovery (by decide)⟩

/-! ## Availability in the discovery document -/

/-- C6, as stated, fails: the sample client has the default availability
("home/status", "online", "offline") and the component has no override, yet the
discovery document carries the topic only and has no payload keys. -/
theorem default_payloads_left_out :
    Sample.idle.availability_ = none ∧
    Sample.globals.availability = Availability.mk "home/status" "online" "offline" ∧
    StrMap.find (discovery_document Sample.globals Sample.plain_adapter Sample.idle)
      "availability_topic" = some (JsonValue.str "home/status") ∧
    StrMap.find (discovery_document Sample.globals Sample.plain_adapter Sample.idle)
      "payload_available" = none ∧
    StrMap.find (discovery_document Sample.globals Sample.plain_adapter Sample.idle)
      "payload_not_available" = none :=
  ⟨rfl, rfl, by decide, by decide, by decide⟩

/-- C6, amended: without an availability override the generic code assigns
`availability_topic` the topic of the client default; it assigns
`payload_available` the default available payload exactly when that differs from
"online", and `payload_not_available` the default unavailable payload exactly
when that differs from "offline". A payload key it does not assign stays as the
adapter hook left it. -/
theorem default_availability_fields (g : Globals) (a : Adapter) (c : MQTTComponent)
    (root : JsonObject) (h : c.availability_ = none) :
    StrMap.find (discovery_builder g a c root) "availability_topic" =
      some (JsonValue.str g.availability.topic) ∧
    StrMap.lastWrite (generic_writes g a c (a.send_discovery root default_config).2)
        "payload_available" =
      (if g.availability.payload_available ≠ "online" then
        some (JsonValue.str g.availability.payload_available) else none) ∧
    StrMap.lastWrite (generic_writes g a c (a.send_discovery root default_config).2)
        "payload_not_available" =
      (if g.availability.payload_not_available ≠ "offline" then
        some (JsonValue.str g.availability.payload_not_available) else none) ∧
    StrMap.find (discovery_builder g a c root) "payload_available" =
      (if g.availability.payload_available ≠ "online" then
        some (JsonValue.str g.availability.payload_available)
      else StrMap.find (a.send_discovery root default_config).1 "payload_available") ∧
    StrMap.find (discovery_builder g a c root) "payload_not_available" =
      (if g.availability.payload_not_available ≠ "offline" then
        some (JsonValue.str g.availability.payload_not_available)
      else StrMap.find (a.send_discovery root default_config).1 "payload_not_available") := by
  refine ⟨?_, ?_, ?_, ?_, ?_⟩
  · rw [find_discovery_builder, lastWrite_availability_topic, h]
    rfl
  · rw [lastWrite_payload_available, h]
  · rw [lastWrite_payload_not_available, h]
  · rw [find_discovery_builder, lastWrite_payload_available, h]
    split_ifs <;> rfl
  · rw [find_discovery_builder, lastWrite_payload_not_available, h]
    split_ifs <;> rfl

/-- Witness of the amended C6: a client default with payloads "up" and "down"
appears in full in the discovery document. -/
theorem default_availability_fields_witness :
    StrMap.find (discovery_builder Sample.globals_custom_payloads Sample.plain_adapter
      Sample.idle []) "availability_topic" = some (JsonValue.str "home/status") ∧
    StrMap.find (discovery_builder Sample.globals_custom_payloads Sample.plain_adapter
      Sample.idle []) "payload_available" = some (JsonValue.str "up") ∧
    StrMap.find (discovery_builder Sample.globals_custom_payloads Sample.plain_adapter
      Sample.idle []) "payload_not_available" = some (JsonValue.str "down") :=
  ⟨(default_availability_fields Sample.globals_custom_payloads Sample.plain_adapter
      Sample.idle [] rfl).1,
    (default_availability_fields Sample.globals_custom_payloads Sample.plain_adapter
      Sample.idle [] rfl).2.2.2.1.trans (by decide),
    (default_availability_fields Sample.globals_custom_payloads Sample.plain_adapter
      Sample.idle [] rfl).2.2.2.2.trans (by decide)⟩

/-- C7, as stated, fails: with the override ("t", "online", "offline") and an
adapter hook that stores `payload_available` and `payload_not_available` itself,
the discovery document has `availability_topic = "t"` and still holds both
payload keys, with the values of the hook. -/
theorem hook_payloads_survive_override :
    (set_availability Sample.idle "t" "online" "offline").availability_ =
      some (Availability.mk "t" "online" "offline") ∧
    StrMap.find (discovery_document Sample.globals Sample.availability_adapter
      (set_availability Sample.idle "t" "online" "offline")) "availability_topic" =
      some (JsonValue.str "t") ∧
    StrMap.find (discovery_document Sample.globals Sample.availability_adapter
      (set_availability Sample.idle "t" "online" "offline")) "payload_available" =
      some (JsonValue.str "yes") ∧
    StrMap.find (discovery_document Sample.globals Sample.availability_adapter
      (set_availability Sample.idle "t" "online" "offline")) "payload_not_available" =
      some (JsonValue.str "no") :=
  ⟨rfl, by decide, by decide, by decide⟩

/-- C7, amended: after `set_availability t pa pna` with `t` non-empty, the
discovery document has `availability_topic = t` whatever the client default and
the adapter hook are; the generic code assigns `payload_available = pa` exactly
when `pa` differs from "online" and `payload_not_available = pna` exactly when
`pna` differs from "offline". With `pa = "online"` and `pna = "offline"` it
assigns neither payload key: the document holds a payload key only if the
adapter hook stored it, with the value of the hook, and holds neither for a hook
that stores neither. -/
theorem override_availability_fields (g : Globals) (a : Adapter) (c : MQTTComponent)
    (root : JsonObject) (t pa pna : String) (ht : t ≠ "") :
    StrMap.find (discovery_builder g a (set_availability c t pa pna) root) "availability_topic" =
      some (JsonValue.str t) ∧
    StrMap.lastWrite (generic_writes g a (set_availability c t pa pna)
        (a.send_discovery root default_config).2) "payload_available" =
      (if pa ≠ "online" then some (JsonValue.str pa) else none) ∧
    StrMap.lastWrite (generic_writes g a (set_availability c t pa pna)
        (a.send_discovery root default_config).2) "payload_not_available" =
      (if pna ≠ "offline" then some (JsonValue.str pna) else none) ∧
    (pa ≠ "online" →
      StrMap.find (discovery_builder g a (set_availability c t pa pna) root)
        "payload_available" = some (JsonValue.str pa)) ∧
    (pna ≠ "offline" →
      StrMap.find (discovery_builder g a (set_availability c t pa pna) root)
        "payload_not_available" = some (JsonValue.str pna)) ∧
    (pa = "online" → pna = "offline" →
      StrMap.find (discovery_builder g a (set_availability c t pa pna) root)
          "payload_available" =
        StrMap.find (a.send_discovery root default_config).1 "payload_available" ∧
      StrMap.find (discovery_builder g a (set_availability c t pa pna) root)
          "payload_not_available" =
        StrMap.find (a.send_discovery root default_config).1 "payload_not_available" ∧
      (StrMap.find (a.send_discovery root default_config).1 "payload_available" = none →
        StrMap.find (discovery_builder g a (set_availability c t pa pna) root)
          "payload_available" = none) ∧
      (StrMap.find (a.send_discovery root default_config).1 "payload_not_available" = none →
        StrMap.find (discovery_builder g a (set_availability c t pa pna) root)
          "payload_not_available" = none)) := by
  have hav : (set_availability c t pa pna).availability_ = some (Availability.mk t pa pna) := rfl
  refine ⟨?_, ?_, ?_, ?_, ?_, ?_⟩
  · rw [find_discovery_builder, lastWrite_availability_topic, hav]
    simp [ht]
  · rw [lastWrite_payload_available, hav]
    simp [ht]
  · rw [lastWrite_payload_not_available, hav]
    simp [ht]
  · intro hpa
    rw [find_discovery_builder, lastWrite_payload_available, hav]
    simp [ht, hpa]
  · intro hpna
    rw [find_discovery_builder, lastWrite_payload_not_available, hav]
    simp [ht, hpna]
  · intro hpa hpna
    have e1 : StrMap.find (discovery_builder g a (set_availability c t pa pna) root)
        "payload_available" =
        StrMap.find (a.send_discovery root default_config).1 "payload_available" := by
      rw [find_discovery_builder, lastWrite_payload_available, hav]
      simp [hpa]
    have e2 : StrMap.find (discovery_builder g a (set_availability c t pa pna) root)
        "payload_not_available" =
        StrMap.find (a.send_discovery root default_config).1 "payload_not_available" := by
      rw [find_discovery_builder, lastWrite_payload_not_available, hav]
      simp [hpna]
    exact ⟨e1, e2, fun h0 => e1.trans h0, fun h0 => e2.trans h0⟩

/-- Witness of the amended C7: with the plain adapter an override with topic "t"
and the payloads "online" and "offline" gives a document with
`availability_topic = "t"` and neither payload key, although the client default
has payloads of its own; with the adapter that stores the payload keys the
document keeps the value of the hook. -/
theorem override_availability_fields_witness :
    StrMap.find (discovery_document Sample.globals_custom_payloads Sample.plain_adapter
      (set_availability Sample.idle "t" "online" "offline")) "availability_topic" =
      some (JsonValue.str "t") ∧
    StrMap.find (discovery_document Sample.globals_custom_payloads Sample.plain_adapter
      (set_availability Sample.idle "t" "online" "offline")) "payload_available" = none ∧
    StrMap.find (discovery_document Sample.globals_custom_payloads Sample.plain_adapter
      (set_availability Sample.idle "t" "online" "offline")) "payload_not_available" = none ∧
    StrMap.find (discovery_document Sample.globals Sample.plain_adapter
      (set_availability Sample.idle "t" "yes" "offline")) "payload_available" =
      some (JsonValue.str "yes") ∧
    StrMap.find (discovery_document Sample.globals Sample.availability_adapter
      (set_availability Sample.idle "t" "online" "offline")) "payload_available" =
      StrMap.find (Sample.availability_adapter.send_discovery [] default_config).1
        "payload_available" :=
  ⟨(override_availability_fields Sample.globals_custom_payloads Sample.plain_adapter Sample.idle []
      "t" "online" "offline" (by decide)).1,
    ((override_availability_fields Sample.globals_custom_payloads Sample.plain_adapter Sample.idle []
      "t" "online" "offline" (by decide)).2.2.2.2.2 rfl rfl).2.2.1 (by decide),
    ((override_availability_fields Sample.globals_custom_payloads Sample.plain_adapter Sample.idle []
      "t" "online" "offline" (by decide)).2.2.2.2.2 rfl rfl).2.2.2 (by decide),
    (override_availability_fields Sample.globals Sample.plain_adapter Sample.idle []
      "t" "yes" "offline" (by decide)).2.2.2.1 (by decide),
    ((override_availability_fields Sample.globals Sample.availability_adapter Sample.idle []
      "t" "online" "offline" (by decide)).2.2.2.2.2 rfl rfl).1⟩

/-- C8, as stated, fails: after `disable_availability`, with an adapter hook that
stores the three availability keys itself, the discovery document holds all
three, with the values of the hook. -/
theorem hook_availability_survives_disable :
    (disable_availability Sample.idle).availability_ = some (Availability.mk "" "" "") ∧
    StrMap.find (discovery_document Sample.globals Sample.availability_adapter
      (disable_availability Sample.idle)) "availability_topic" = some (JsonValue.str "mine") ∧
    StrMap.find (discovery_document Sample.globals Sample.availability_adapter
      (disable_availability Sample.idle)) "payload_available" = some (JsonValue.str "yes") ∧
    StrMap.find (discovery_document Sample.globals Sample.availability_adapter
      (disable_availability Sample.idle)) "payload_not_available" = some (JsonValue.str "no") :=
  ⟨rfl, by decide, by decide, by decide⟩

/-- C8, amended: when the availability override has an empty topic, set by
`set_availability "" pa pna` or by `disable_availability`, the generic code
assigns none of `availability_topic`, `payload_available`,
`payload_not_available`, whatever the client default is: the discovery document
holds such a key only if the adapter hook stored it, with the value of the hook,
and holds none of the three for a hook that stores none. -/
theorem empty_override_no_availability (g : Globals) (a : Adapter) (c : MQTTComponent)
    (root : JsonObject) (pa pna : String) (k : String) (hk : k ∈ availability_keys) :
    StrMap.lastWrite (generic_writes g a (set_availability c "" pa pna)
        (a.send_discovery root default_config).2) k = none ∧
    StrMap.lastWrite (generic_writes g a (disable_availability c)
        (a.send_discovery root default_config).2) k = none ∧
    StrMap.find (discovery_builder g a (set_availability c "" pa pna) root) k =
      StrMap.find (a.send_discovery root default_config).1 k ∧
    StrMap.find (discovery_builder g a (disable_availability c) root) k =
      StrMap.find (a.send_discovery root default_config).1 k ∧
    (StrMap.find (a.send_discovery root default_config).1 k = none →
      StrMap.find (discovery_builder g a (set_availability c "" pa pna) root) k = none ∧
      StrMap.find (discovery_builder g a (disable_availability c) root) k = none) := by
  have key : ∀ qa qna : String,
      StrMap.lastWrite (generic_writes g a (set_availability c "" qa qna)
        (a.send_discovery root default_config).2) k = none := by
    intro qa qna
    have hav : (set_availability c "" qa qna).availability_ =
        some (Availability.mk "" qa qna) := rfl
    simp only [availability_keys, List.mem_cons, List.mem_singleton, List.not_mem_nil,
      or_false] at hk
    rcases hk with rfl | rfl | rfl
    · rw [lastWrite_availability_topic, hav]
      simp
    · rw [lastWrite_payload_available, hav]
      simp
    · rw [lastWrite_payload_not_available, hav]
      simp
  have h1 := key pa pna
  have h2 : StrMap.lastWrite (generic_writes g a (disable_availability c)
      (a.send_discovery root default_config).2) k = none := key "" ""
  have f1 : StrMap.find (discovery_builder g a (set_availability c "" pa pna) root) k =
      StrMap.find (a.send_discovery root default_config).1 k := by
    rw [find_discovery_builder, h1]
    rfl
  have f2 : StrMap.find (discovery_builder g a (disable_availability c) root) k =
      StrMap.find (a.send_discovery root default_config).1 k := by
    rw [find_discovery_builder, h2]
    rfl
  exact ⟨h1, h2, f1, f2, fun h0 => ⟨f1.trans h0, f2.trans h0⟩⟩

/-- Witness of the amended C8: after `disable_availability` the discovery document
of the sample lamp has no `availability_topic`, although the client has a
default; with the adapter that stores the key, the document keeps the value of
the hook. -/
theorem empty_override_no_availability_witness :
    (StrMap.find (discovery_builder Sample.globals_custom_payloads Sample.plain_adapter
        (set_availability Sample.idle "" "up" "down") []) "availability_topic" = none ∧
      StrMap.find (discovery_builder Sample.globals_custom_payloads Sample.plain_adapter
        (disable_availability Sample.idle) []) "availability_topic" = none) ∧
    StrMap.find (discovery_builder Sample.globals_custom_payloads Sample.availability_adapter
      (disable_availability Sample.idle) []) "payload_available" =
      StrMap.find (Sample.availability_adapter.send_discovery [] default_config).1
        "payload_available" :=
  ⟨(empty_override_no_availability Sample.globals_custom_payloads Sample.plain_adapter
      Sample.idle [] "up" "down" "availability_topic" (by decide)).2.2.2.2 (by decide),
    (empty_override_no_availability Sample.globals_custom_payloads Sample.availability_adapter
      Sample.idle [] "up" "down" "payload_available" (by decide)).2.2.2.1⟩

/-! ## Generic fields of the discovery document -/

/-- C9: in `send_discovery_` the adapter hook runs first and the generic
assignments follow, so the generic value wins on a key collision. For every
adapter hook the final document holds `friendly_name()` under "name", and holds
`get_state_topic()` under "state_topic" and `get_command_topic()` under
"command_topic" when the hook left the matching config flag true, whatever the
hook stored there; every key the generic code does not assign keeps the value
the hook left. -/
theorem generic_fields_take_precedence (g : Globals) (a : Adapter) (c : MQTTComponent)
    (root : JsonObject) :
    discovery_builder g a c root =
      StrMap.setAll (a.send_discovery root default_config).1
        (generic_writes g a c (a.send_discovery root default_config).2) ∧
    StrMap.find (discovery_builder g a c root) "name" = some (JsonValue.str a.friendly_name) ∧
    ((a.send_discovery root default_config).2.state_topic = true →
      StrMap.find (discovery_builder g a c root) "state_topic" =
        some (JsonValue.str (get_state_topic g a c))) ∧
    ((a.send_discovery root default_config).2.command_topic = true →
      StrMap.find (discovery_builder g a c root) "command_topic" =
        some (JsonValue.str (get_command_topic g a c))) ∧
    (∀ k, StrMap.lastWrite (generic_writes g a c (a.send_discovery root default_config).2) k
        = none →
      StrMap.find (discovery_builder g a c root) k =
        StrMap.find (a.send_discovery root default_config).1 k) ∧
    (∀ k, k ∉ generic_keys →
      StrMap.find (discovery_builder g a c root) k =
        StrMap.find (a.send_discovery root default_config).1 k) := by
  refine ⟨discovery_builder_eq g a c root, ?_, ?_, ?_, ?_, ?_⟩
  · rw [find_discovery_builder, lastWrite_name]
    rfl
  · intro h
    rw [find_discovery_builder, lastWrite_state_topic, h]
    rfl
  · intro h
    rw [find_discovery_builder, lastWrite_command_topic, h]
    rfl
  · intro k hk
    rw [find_discovery_builder, hk]
    rfl
  · intro k hk
    rw [find_discovery_builder, lastWrite_other g a c _ k hk]
    rfl

/-- Witness of C9: an adapter that stores "name", "state_topic" and "brightness"
ends up with the generic name and state topic and keeps its own "brightness". -/
theorem generic_fields_take_precedence_witness :
    StrMap.find (Sample.colliding_adapter.send_discovery [] default_config).1 "name" =
      some (JsonValue.str "mine") ∧
    StrMap.find (discovery_builder Sample.globals Sample.colliding_adapter Sample.idle [])
      "name" = some (JsonValue.str "lamp") ∧
    StrMap.find (discovery_builder Sample.globals Sample.colliding_adapter Sample.idle [])
      "state_topic" = some (JsonValue.str "home/light/lamp/state") ∧
    StrMap.find (discovery_builder Sample.globals Sample.colliding_adapter Sample.idle [])
      "brightness" = some (JsonValue.bool true) :=
  ⟨by decide,
    (generic_fields_take_precedence Sample.globals Sample.colliding_adapter Sample.idle []).2.1,
    (generic_fields_take_precedence Sample.globals Sample.colliding_adapter Sample.idle
      []).2.2.1 rfl,
    ((generic_fields_take_precedence Sample.globals Sample.colliding_adapter Sample.idle
      []).2.2.2.2.2 "brightness" (by decide)).trans (by decide)⟩

/-- C10: for every component and adapter hook the discovery document has
`name = friendly_name()`. Starting from the config `state_topic = true`,
`command_topic = true`, `platform = "mqtt"`, the generic code assigns
`state_topic = get_state_topic()` exactly when the hook left `config.state_topic`
true, `command_topic = get_command_topic()` exactly when it left
`config.command_topic` true, and `platform = config.platform` exactly when
`config.platform` differs from "mqtt". With an adapter that changes nothing the
document has name, state_topic and command_topic and no platform key. -/
theorem generic_fields_by_config (g : Globals) (a : Adapter) (c : MQTTComponent)
    (root : JsonObject) :
    default_config = SendDiscoveryConfig.mk true true "mqtt" ∧
    StrMap.find (discovery_builder g a c root) "name" = some (JsonValue.str a.friendly_name) ∧
    StrMap.lastWrite (generic_writes g a c (a.send_discovery root default_config).2)
        "state_topic" =
      (if (a.send_discovery root default_config).2.state_topic then
        some (JsonValue.str (get_state_topic g a c)) else none) ∧
    StrMap.lastWrite (generic_writes g a c (a.send_discovery root default_config).2)
        "command_topic" =
      (if (a.send_discovery root default_config).2.command_topic then
        some (JsonValue.str (get_command_topic g a c)) else none) ∧
    StrMap.lastWrite (generic_writes g a c (a.send_discovery root default_config).2)
        "platform" =
      (if (a.send_discovery root default_config).2.platform ≠ "mqtt" then
        some (JsonValue.str (a.send_discovery root default_config).2.platform) else none) ∧
    ((∀ r cfg, a.send_discovery r cfg = (r, cfg)) →
      StrMap.find (discovery_document g a c) "name" = some (JsonValue.str a.friendly_name) ∧
      StrMap.find (discovery_document g a c) "state_topic" =
        some (JsonValue.str (get_state_topic g a c)) ∧
      StrMap.find (discovery_document g a c) "command_topic" =
        some (JsonValue.str (get_command_topic g a c)) ∧
      StrMap.find (discovery_document g a c) "platform" = none) := by
  refine ⟨rfl, ?_, lastWrite_state_topic g a c _, lastWrite_command_topic g a c _,
    lastWrite_platform g a c _, ?_⟩
  · rw [find_discovery_builder, lastWrite_name]
    rfl
  · intro hid
    have hcfg : a.send_discovery [] default_config = ([], default_config) := hid [] default_config
    unfold discovery_document
    refine ⟨?_, ?_, ?_, ?_⟩
    · rw [find_discovery_builder, lastWrite_name]
      rfl
    · rw [find_discovery_builder, lastWrite_state_topic, hcfg]
      rfl
    · rw [find_discovery_builder, lastWrite_command_topic, hcfg]
      rfl
    · rw [find_discovery_builder, lastWrite_platform, hcfg]
      rfl

/-- Witness of C10: the plain adapter yields name, both topics and no platform
key; the sensor adapter, which clears `command_topic` and sets the platform
"mqtt_json", yields a platform key and no command topic. -/
theorem generic_fields_by_config_witness :
    (StrMap.find (discovery_document Sample.globals Sample.plain_adapter Sample.idle) "name" =
        some (JsonValue.str "lamp") ∧
      StrMap.find (discovery_document Sample.globals Sample.plain_adapter Sample.idle)
        "state_topic" = some (JsonValue.str "home/light/lamp/state") ∧
      StrMap.find (discovery_document Sample.globals Sample.plain_adapter Sample.idle)
        "command_topic" = some (JsonValue.str "home/light/lamp/command") ∧
      StrMap.find (discovery_document Sample.globals Sample.plain_adapter Sample.idle)
        "platform" = none) ∧
    StrMap.lastWrite (generic_writes Sample.globals Sample.sensor_adapter Sample.idle
      (Sample.sensor_adapter.send_discovery [] default_config).2) "command_topic" = none ∧
    StrMap.lastWrite (generic_writes Sample.globals Sample.sensor_adapter Sample.idle
      (Sample.sensor_adapter.send_discovery [] default_config).2) "platform" =
      some (JsonValue.str "mqtt_json") :=
  ⟨(generic_fields_by_config Sample.globals Sample.plain_adapter Sample.idle []).2.2.2.2.2
      (fun _ _ => rfl),
    (generic_fields_by_config Sample.globals Sample.sensor_adapter Sample.idle
      []).2.2.2.1.trans (by decide),
    (generic_fields_by_config Sample.globals Sample.sensor_adapter Sample.idle
      []).2.2.2.2.1.trans (by decide)⟩

/-! ## Discovery topic and retain policy -/

/-- C11: with discovery enabled for the component and the client,
`get_discovery_topic info` is
`info.prefix + "/" + component_type() + "/" + sanitized App name + "/" + get_default_object_id() + "/config"`;
`send_discovery_` publishes to that topic, computed for the discovery info of
the client; the topic depends neither on the topic prefix of the client nor on
the custom topics of the component. -/
theorem discovery_topic_spec (g : Globals) (a : Adapter) (c : MQTTComponent)
    (info : MQTTDiscoveryInfo) (h1 : c.discovery_enabled_ = true)
    (h2 : g.is_discovery_enabled = true) :
    get_discovery_topic g a c info =
      info.discovery_prefix ++ "/" ++ a.component_type ++ "/" ++
        g.sanitize_string_whitelist g.app_name g.HOSTNAME_CHARACTER_WHITELIST ++ "/" ++
        get_default_object_id g a ++ "/config" ∧
    (∃ doc qos retain, send_discovery_ g a c =
      [Event.publish_json (g.discovery_info.discovery_prefix ++ "/" ++ a.component_type ++ "/" ++
        g.sanitize_string_whitelist g.app_name g.HOSTNAME_CHARACTER_WHITELIST ++ "/" ++
        get_default_object_id g a ++ "/config") doc qos retain]) ∧
    (∀ (p : String) (topics : StrMap String),
      get_discovery_topic { g with topic_prefix := p } a { c with custom_topics_ := topics } info =
        get_discovery_topic g a c info) := by
  have hen : is_discovery_enabled g c = true := by simp [is_discovery_enabled, h1, h2]
  refine ⟨?_, ?_, ?_⟩
  · simp [get_discovery_topic, hen]
  · refine ⟨discovery_builder g a c [], 0, g.discovery_info.retain, ?_⟩
    simp [send_discovery_, send_json_message, get_discovery_topic, hen]
  · intro p topics
    simp [get_discovery_topic, is_discovery_enabled, get_default_object_id]

/-- Witness of C11 on the sample lamp: the discovery topic stays the same when a
custom state topic is set. -/
theorem discovery_topic_spec_witness :
    get_discovery_topic Sample.globals Sample.plain_adapter Sample.pending
      Sample.globals.discovery_info = "homeassistant/light/node/lamp/config" ∧
    get_discovery_topic { Sample.globals with topic_prefix := "attic" } Sample.plain_adapter
      { Sample.pending with custom_topics_ := [("state", "my/topic")] }
      Sample.globals.discovery_info = "homeassistant/light/node/lamp/config" :=
  ⟨(discovery_topic_spec Sample.globals Sample.plain_adapter Sample.pending
      Sample.globals.discovery_info rfl rfl).1,
    ((discovery_topic_spec Sample.globals Sample.plain_adapter Sample.pending
      Sample.globals.discovery_info rfl rfl).2.2 "attic" [("state", "my/topic")]).trans
      (discovery_topic_spec Sample.globals Sample.plain_adapter Sample.pending
        Sample.globals.discovery_info rfl rfl).1⟩

/-- C12: whatever the component's own `retain_` is, the publish made by
`send_discovery_` has QoS 0 and the retain flag of the client's discovery info.
`retain_` is the retain flag of `send_message` and `send_json_message` exactly
when the caller passes none; the discovery document, the topics and the trace
of a tick do not depend on it. -/
theorem discovery_publish_retain (g : Globals) (a : Adapter) (c : MQTTComponent) (r : Bool) :
    send_discovery_ g a (set_retain c r) =
      [Event.publish_json (get_discovery_topic g a c g.discovery_info)
        (discovery_document g a c) 0 g.discovery_info.retain] ∧
    send_discovery_ g a (set_retain c r) = send_discovery_ g a c ∧
    (∀ (topic : String) (f : JsonObject → JsonObject) (qos : Option Nat),
      send_json_message (set_retain c r) topic f qos none =
        [Event.publish_json topic (f []) (qos.getD 0) r]) ∧
    (∀ (topic : String) (f : JsonObject → JsonObject) (qos : Option Nat) (r2 : Bool),
      send_json_message (set_retain c r) topic f qos (some r2) =
        [Event.publish_json topic (f []) (qos.getD 0) r2]) ∧
    (∀ (topic payload : String) (qos : Option Nat),
      send_message (set_retain c r) topic payload qos none =
        PublishCall.mk topic payload (qos.getD 0) r) ∧
    (∀ (topic payload : String) (qos : Option Nat) (r2 : Bool),
      send_message (set_retain c r) topic payload qos (some r2) =
        PublishCall.mk topic payload (qos.getD 0) r2) ∧
    (∀ k, get_topic_for g a (set_retain c r) k = get_topic_for g a c k) ∧
    (loop_ g a (set_retain c r)).2 = (loop_ g a c).2 := by
  refine ⟨rfl, rfl, ?_, ?_, ?_, ?_, ?_, ?_⟩
  · intro topic f qos
    rfl
  · intro topic f qos r2
    rfl
  · intro topic payload qos
    rfl
  · intro topic payload qos r2
    rfl
  · intro k
    rfl
  · unfold loop_
    cases hf : c.next_send_discovery_
    · simp [set_retain, hf]
    · simp [set_retain, hf]
      rfl

/-! ## The discovery switch and the order of the hooks -/

/-- C14: `discovery_enabled_` changes one way only. After `disable_discovery` it
is false, and no step of a component (`set_retain`, `set_custom_topic`,
`set_custom_state_topic`, `set_custom_command_topic`, `set_availability`,
`disable_availability`, `disable_discovery`, `setup_`, `loop_`, the on-connect
callback) turns it from false to true; so once it is disabled,
`is_discovery_enabled` is false after every run. -/
theorem discovery_enabled_one_way (g : Globals) (a : Adapter) (c : MQTTComponent) :
    (disable_discovery c).discovery_enabled_ = false ∧
    (∀ op, c.discovery_enabled_ = false → (step g a c op).1.discovery_enabled_ = false) ∧
    (∀ ops, c.discovery_enabled_ = false →
      (run g a c ops).1.discovery_enabled_ = false ∧
      is_discovery_enabled g (run g a c ops).1 = false) ∧
    (∀ ops, (run g a (disable_discovery c) ops).1.discovery_enabled_ = false ∧
      is_discovery_enabled g (run g a (disable_discovery c) ops).1 = false) := by
  have hstep : ∀ (d : MQTTComponent) (op : Op), d.discovery_enabled_ = false →
      (step g a d op).1.discovery_enabled_ = false := by
    intro d op h
    rw [step_discovery_enabled]
    split_ifs
    · rfl
    · exact h
  have hrun : ∀ (ops : List Op) (d : MQTTComponent), d.discovery_enabled_ = false →
      (run g a d ops).1.discovery_enabled_ = false := by
    intro ops
    induction ops with
    | nil =>
      intro d h
      exact h
    | cons op rest ih =>
      intro d h
      rw [run_cons]
      exact ih (step g a d op).1 (hstep d op h)
  refine ⟨rfl, hstep c, ?_, ?_⟩
  · intro ops h
    refine ⟨hrun ops c h, ?_⟩
    simp [is_discovery_enabled, hrun ops c h]
  · intro ops
    refine ⟨hrun ops _ rfl, ?_⟩
    simp [is_discovery_enabled, hrun ops (disable_discovery c) rfl]

/-- Witness of C14: after `disable_discovery`, setup, reconnect events, ticks and
setters leave discovery disabled. -/
theorem discovery_enabled_one_way_witness :
    is_discovery_enabled Sample.globals
      (run Sample.globals Sample.plain_adapter Sample.pending_disabled
        [Op.setup_, Op.on_connect, Op.loop_, Op.set_retain true, Op.set_availability "t" "a" "b",
          Op.loop_]).1 = false ∧
    (step Sample.globals Sample.plain_adapter Sample.pending_disabled
      Op.on_connect).1.discovery_enabled_ = false :=
  ⟨((discovery_enabled_one_way Sample.globals Sample.plain_adapter
      Sample.pending_disabled).2.2.1
      [Op.setup_, Op.on_connect, Op.loop_, Op.set_retain true, Op.set_availability "t" "a" "b",
        Op.loop_] rfl).2,
    (discovery_enabled_one_way Sample.globals Sample.plain_adapter
      Sample.pending_disabled).2.1 Op.on_connect rfl⟩

/-- C15: a tick calls `loop_internal()`, then `loop()`, and only then makes the
discovery publish, if any: the trace of `loop_` starts with the two hook calls
and whatever follows them is the discovery publish. `setup_` calls
`setup_internal()`, then `setup()`, then registers the on-connect callback; it
leaves the component, the resend flag included, as it was and publishes
nothing. -/
theorem hook_order (g : Globals) (a : Adapter) (c : MQTTComponent) :
    (loop_ g a c).2 =
      [Event.loop_internal, Event.loop] ++
        (if c.next_send_discovery_ && is_discovery_enabled g c then send_discovery_ g a c
          else []) ∧
    (loop_ g a c).2.take 2 = [Event.loop_internal, Event.loop] ∧
    (∀ e ∈ (loop_ g a c).2.drop 2, e.is_discovery_publish = true) ∧
    ((loop_ g a c).2.drop 2).length ≤ 1 ∧
    (setup_ c).2 = [Event.setup_internal, Event.setup, Event.add_on_connect_callback] ∧
    (setup_ c).1 = c ∧
    (setup_ c).1.next_send_discovery_ = c.next_send_discovery_ ∧
    discovery_publishes (setup_ c).2 = 0 := by
  have htrace : (loop_ g a c).2 =
      [Event.loop_internal, Event.loop] ++
        (if c.next_send_discovery_ && is_discovery_enabled g c then send_discovery_ g a c
          else []) := by
    unfold loop_
    cases hf : c.next_send_discovery_ <;> cases he : is_discovery_enabled g c <;> simp
  refine ⟨htrace, ?_, ?_, ?_, rfl, rfl, rfl, ?_⟩
  · rw [htrace]
    rfl
  · rw [htrace]
    intro e he
    cases hf : c.next_send_discovery_ <;> cases hen : is_discovery_enabled g c <;>
      simp [hf, hen, send_discovery_, send_json_message] at he
    subst he
    rfl
  · rw [htrace]
    cases hf : c.next_send_discovery_ <;> cases hen : is_discovery_enabled g c <;>
      simp [send_discovery_, send_json_message]
  · simp [setup_, discovery_publishes, Event.is_discovery_publish]

/-- Witness of C15: the tick of the sample lamp with a pending resend calls both
hooks first; the third event of its trace is the discovery publish. -/
theorem hook_order_witness :
    (loop_ Sample.globals Sample.plain_adapter Sample.pending).2.take 2 =
      [Event.loop_internal, Event.loop] ∧
    (Event.publish_json "homeassistant/light/node/lamp/config"
      (discovery_document Sample.globals Sample.plain_adapter Sample.pending) 0
      true).is_discovery_publish = true ∧
    (Event.publish_json "homeassistant/light/node/lamp/config"
      (discovery_document Sample.globals Sample.plain_adapter Sample.pending) 0 true) ∈
      (loop_ Sample.globals Sample.plain_adapter Sample.pending).2.drop 2 :=
  ⟨(hook_order Sample.globals Sample.plain_adapter Sample.pending).2.1,
    (hook_order Sample.globals Sample.plain_adapter Sample.pending).2.2.1 _ (by decide),
    by decide⟩

/-! ## The end-to-end example -/

/-- C13: for the friendly name "Living Room Light", the type "light", the topic
prefix "home", the discovery prefix "homeassistant" and the firmware name
"office-node", with discovery enabled and no custom topics, the default object
id is "living_room_light", the state topic is
"home/light/living_room_light/state" and the discovery topic is
"homeassistant/light/office_node/living_room_light/config". -/
theorem end_to_end_example (c : MQTTComponent)
    (hook : JsonObject → SendDiscoveryConfig → JsonObject × SendDiscoveryConfig)
    (h1 : c.custom_topics_ = []) (h2 : c.discovery_enabled_ = true) :
    get_default_object_id Sample.office_node (Sample.living_room_light hook) =
      "living_room_light" ∧
    get_state_topic Sample.office_node (Sample.living_room_light hook) c =
      "home/light/living_room_light/state" ∧
    get_discovery_topic Sample.office_node (Sample.living_room_light hook) c
      Sample.office_node.discovery_info =
      "homeassistant/light/office_node/living_room_light/config" := by
  have hid : get_default_object_id Sample.office_node (Sample.living_room_light hook) =
      "living_room_light" := by
    show Helpers.sanitize_string_whitelist (Helpers.to_lowercase_underscore "Living Room Light")
      Helpers.HOSTNAME_CHARACTER_WHITELIST = "living_room_light"
    decide
  refine ⟨hid, ?_, ?_⟩
  · simp only [get_state_topic, get_topic_for, h1, StrMap.find, get_default_topic_for, hid]
    show "home" ++ "/" ++ "light" ++ "/" ++ "living_room_light" ++ "/" ++ "state" =
      "home/light/living_room_light/state"
    decide
  · have hen : is_discovery_enabled Sample.office_node c = true := by
      simp [is_discovery_enabled, h2, Sample.office_node]
    have happ : Sample.office_node.sanitize_string_whitelist Sample.office_node.app_name
        Sample.office_node.HOSTNAME_CHARACTER_WHITELIST = "office_node" := by decide
    simp only [get_discovery_topic, hen, hid, happ]
    show "homeassistant" ++ "/" ++ "light" ++ "/" ++ "office_node" ++ "/" ++
      "living_room_light" ++ "/config" =
      "homeassistant/light/office_node/living_room_light/config"
    decide

/-- Witness of C13 on a freshly constructed component. -/
theorem end_to_end_example_witness :
    get_default_object_id Sample.office_node
      (Sample.living_room_light (fun root config => (root, config))) = "living_room_light" ∧
    get_state_topic Sample.office_node
      (Sample.living_room_light (fun root config => (root, config))) Sample.idle =
      "home/light/living_room_light/state" ∧
    get_discovery_topic Sample.office_node
      (Sample.living_room_light (fun root config => (root, config))) Sample.idle
      Sample.office_node.discovery_info =
      "homeassistant/light/office_node/living_room_light/config" :=
  end_to_end_example Sample.idle (fun root config => (root, config)) rfl rfl

/-! ## Lemmas on bit masks -/

theorem testBit_bit_of_pin (pin i : Nat) (hp : pin < 32) :
    (bit_of_pin pin).testBit i = decide (pin = i) := by
  unfold bit_of_pin
  rw [Nat.testBit_mod_two_pow, Nat.one_shiftLeft, Nat.testBit_two_pow]
  by_cases h : pin = i
  · subst h
    simp [hp]
  · simp [h]

theorem testBit_int_not (x i : Nat) (hi : i < 32) :
    (int_not x).testBit i = !x.testBit i := by
  unfold int_not
  rw [Nat.testBit_xor, Nat.testBit_two_pow_sub_one]
  simp [hi]

theorem testBit_to_uint16 (x i : Nat) :
    (to_uint16 x).testBit i = (decide (i < 16) && x.testBit i) := by
  unfold to_uint16
  rw [Nat.testBit_mod_two_pow]

/-- Bits of a mask after `mask |= (1 << pin)`. -/
theorem testBit_set_pin (m pin i : Nat) (hp : pin < 32) :
    (to_uint16 (m ||| bit_of_pin pin)).testBit i =
      (decide (i < 16) && (m.testBit i || decide (pin = i))) := by
  rw [testBit_to_uint16, Nat.testBit_or, testBit_bit_of_pin pin i hp]

/-- Bits of a mask after `mask &= ~(1 << pin)`. -/
theorem testBit_clear_pin (m pin i : Nat) (hp : pin < 32) :
    (to_uint16 (m &&& int_not (bit_of_pin pin))).testBit i =
      (decide (i < 16) && (m.testBit i && !decide (pin = i))) := by
  rw [testBit_to_uint16, Nat.testBit_and]
  by_cases hi : i < 16
  · rw [testBit_int_not _ i (by omega), testBit_bit_of_pin pin i hp]
  · simp [hi]

theorem to_uint16_lt (x : Nat) : to_uint16 x < 2 ^ 16 :=
  Nat.mod_lt _ (by decide)

namespace PCF8574Component

theorem write_gpio_state (c : PCF8574Component) (ack : Bool) : (write_gpio_ c ack).1 = c := by
  unfold write_gpio_
  split_ifs <;> rfl

/-- Bit `p` of the value that `write_gpio_` computes. -/
theorem testBit_gpio_value (c : PCF8574Component) (p : Nat) (hp : p < 16) :
    (gpio_value c).testBit p =
      ((c.input_mask_.testBit p && !c.ddr_mask_.testBit p) || c.port_mask_.testBit p) := by
  unfold gpio_value
  rw [testBit_to_uint16, Nat.testBit_or, Nat.testBit_and, testBit_int_not _ p (by omega)]
  simp [hp]

end PCF8574Component

/-! ## PCF8574: the transmitted value -/

namespace PCF8574Component

theorem and_255 (v : Nat) : v &&& 0xFF = v % 256 :=
  Nat.and_pow_two_sub_one_eq_mod v 8

theorem shift_and_255 (v : Nat) (hv : v < 2 ^ 16) : (v >>> 8) &&& 0xFF = v / 256 := by
  rw [and_255, Nat.shiftRight_eq_div_pow]
  have h : v / 2 ^ 8 < 256 := by
    rw [Nat.div_lt_iff_lt_mul (by decide)]
    exact hv
  exact Nat.mod_eq_of_lt h

theorem gpio_value_lt (c : PCF8574Component) : gpio_value c < 2 ^ 16 :=
  to_uint16_lt _

end PCF8574Component

open PCF8574Component

/-- C18, as stated, fails: on a component that is marked failed `write_gpio_`
returns false and transmits nothing. -/
theorem failed_expander_transmits_nothing :
    Sample.failed_expander.failed_ = true ∧
    (write_gpio_ Sample.failed_expander true).2.1 = false ∧
    (write_gpio_ Sample.failed_expander true).2.2 = [] :=
  ⟨rfl, rfl, rfl⟩

/-- C18, amended: `write_gpio_` changes none of the masks. On a component that is
marked failed it transmits nothing; otherwise it transmits the 16-bit value
`(input_mask_ & ~ddr_mask_) | port_mask_`, the low byte first and the high byte
only for the PCF8575. For every pin `p < 16` the bit `p` of that value is the
`port_mask_` bit when `p` is an output, 1 when `p` is an input with pull-up,
and the `input_mask_` bit when `p` is a plain input. -/
theorem write_gpio_transmits (c : PCF8574Component) (ack : Bool) :
    (write_gpio_ c ack).1 = c ∧
    (c.failed_ = true → (write_gpio_ c ack).2 = (false, [])) ∧
    (c.failed_ = false →
      (write_gpio_ c ack).2.1 = ack ∧
      (write_gpio_ c ack).2.2 =
        [I2CCall.begin_transmission_ c.address_,
          I2CCall.write_ c.address_ (gpio_value c % 256)] ++
        (if c.pcf8575_ then [I2CCall.write_ c.address_ (gpio_value c / 256)] else []) ++
        [I2CCall.end_transmission_ c.address_]) ∧
    gpio_value c < 2 ^ 16 ∧
    (∀ p, p < 16 →
      (c.ddr_mask_.testBit p = true →
        (gpio_value c).testBit p = c.port_mask_.testBit p) ∧
      (c.ddr_mask_.testBit p = false → c.port_mask_.testBit p = true →
        (gpio_value c).testBit p = true) ∧
      (c.ddr_mask_.testBit p = false → c.port_mask_.testBit p = false →
        (gpio_value c).testBit p = c.input_mask_.testBit p)) := by
  refine ⟨write_gpio_state c ack, ?_, ?_, gpio_value_lt c, ?_⟩
  · intro hf
    simp [write_gpio_, hf]
  · intro hf
    unfold write_gpio_
    rw [if_neg (by simp [hf])]
    refine ⟨rfl, ?_⟩
    cases hp : c.pcf8575_
    · simp [and_255]
    · simp [and_255, shift_and_255 _ (gpio_value_lt c)]
  · intro p hp
    rw [testBit_gpio_value c p hp]
    refine ⟨?_, ?_, ?_⟩
    · intro h
      simp [h]
    · intro _ h
      simp [h]
    · intro h1 h2
      simp [h1, h2]

/-- Witness of the amended C18 on the sample PCF8575: the value 0x0203 goes out as
the bytes 0x03 and 0x02; pin 0 (output) follows the port bit, pin 9 (plain
input) follows the input bit. -/
theorem write_gpio_transmits_witness :
    (write_gpio_ Sample.expander true).2.2 =
      [I2CCall.begin_transmission_ 0x21, I2CCall.write_ 0x21 0x03, I2CCall.write_ 0x21 0x02,
        I2CCall.end_transmission_ 0x21] ∧
    (gpio_value Sample.expander).testBit 0 = Sample.expander.port_mask_.testBit 0 ∧
    (gpio_value Sample.expander).testBit 9 = Sample.expander.input_mask_.testBit 9 ∧
    (write_gpio_ Sample.failed_expander true).2 = (false, []) :=
  ⟨((write_gpio_transmits Sample.expander true).2.2.1 rfl).2.trans (by decide),
    ((write_gpio_transmits Sample.expander true).2.2.2.2 0 (by decide)).1 (by decide),
    ((write_gpio_transmits Sample.expander true).2.2.2.2 9 (by decide)).2.2 (by decide)
      (by decide),
    (write_gpio_transmits Sample.failed_expander true).2.1 rfl⟩

/-! ## PCF8574: pin modes and pin writes -/

/-- Setting a pin twice is setting it once. -/
theorem set_pin_idem (m pin : Nat) (hp : pin < 32) :
    to_uint16 (to_uint16 (m ||| bit_of_pin pin) ||| bit_of_pin pin) =
      to_uint16 (m ||| bit_of_pin pin) := by
  apply Nat.eq_of_testBit_eq
  intro i
  rw [testBit_set_pin _ pin i hp, testBit_set_pin _ pin i hp]
  cases decide (i < 16) <;> cases m.testBit i <;> cases decide (pin = i) <;> rfl

/-- Clearing a pin twice is clearing it once. -/
theorem clear_pin_idem (m pin : Nat) (hp : pin < 32) :
    to_uint16 (to_uint16 (m &&& int_not (bit_of_pin pin)) &&& int_not (bit_of_pin pin)) =
      to_uint16 (m &&& int_not (bit_of_pin pin)) := by
  apply Nat.eq_of_testBit_eq
  intro i
  rw [testBit_clear_pin _ pin i hp, testBit_clear_pin _ pin i hp]
  cases decide (i < 16) <;> cases m.testBit i <;> cases decide (pin = i) <;> rfl

/-- C19: for every pin `p < 16` and every valid mode, `pin_mode_ p mode` returns
and leaves bit `p` of `ddr_mask_` set exactly when the mode is `PCF8574_OUTPUT`
and bit `p` of `port_mask_` set exactly when the mode is
`PCF8574_INPUT_PULLUP`; every other bit of the two masks and the whole
`input_mask_` are unchanged; applying it a second time with the same arguments
leaves the component as it is after the first time. -/
theorem pin_mode_spec (c : PCF8574Component) (p : Nat) (mode : PCF8574Mode) (ack : Bool)
    (hp : p < 16) (hmode : ∀ v, mode ≠ PCF8574Mode.other v) :
    ∃ r, pin_mode_ c p mode ack = some r ∧
      r.1.ddr_mask_.testBit p = decide (mode = PCF8574Mode.PCF8574_OUTPUT) ∧
      r.1.port_mask_.testBit p = decide (mode = PCF8574Mode.PCF8574_INPUT_PULLUP) ∧
      (∀ i, i < 16 → i ≠ p →
        r.1.ddr_mask_.testBit i = c.ddr_mask_.testBit i ∧
        r.1.port_mask_.testBit i = c.port_mask_.testBit i) ∧
      r.1.input_mask_ = c.input_mask_ ∧
      (∀ ack2, ∃ r2, pin_mode_ r.1 p mode ack2 = some r2 ∧ r2.1 = r.1) := by
  have hp32 : p < 32 := by omega
  have hbits : ∀ i, i < 16 → i ≠ p → ∀ m,
      (to_uint16 (m ||| bit_of_pin p)).testBit i = m.testBit i ∧
      (to_uint16 (m &&& int_not (bit_of_pin p))).testBit i = m.testBit i := by
    intro i hi hne m
    have hne2 : ¬ p = i := fun e => hne e.symm
    rw [testBit_set_pin _ p i hp32, testBit_clear_pin _ p i hp32]
    simp [hi, hne2]
  have hset : ∀ m, (to_uint16 (m ||| bit_of_pin p)).testBit p = true := by
    intro m
    rw [testBit_set_pin _ p p hp32]
    simp [hp]
  have hclear : ∀ m, (to_uint16 (m &&& int_not (bit_of_pin p))).testBit p = false := by
    intro m
    rw [testBit_clear_pin _ p p hp32]
    simp
  cases mode with
  | other v => exact absurd rfl (hmode v)
  | PCF8574_INPUT =>
    refine ⟨_, rfl, ?_, ?_, ?_, ?_, ?_⟩
    · simp only [write_gpio_state]
      rw [hclear]
      rfl
    · simp only [write_gpio_state]
      rw [hclear]
      rfl
    · intro i hi hne
      simp only [write_gpio_state]
      exact ⟨(hbits i hi hne _).2, (hbits i hi hne _).2⟩
    · simp only [write_gpio_state]
    · intro ack2
      refine ⟨_, rfl, ?_⟩
      simp only [write_gpio_state, clear_pin_idem _ p hp32]
  | PCF8574_INPUT_PULLUP =>
    refine ⟨_, rfl, ?_, ?_, ?_, ?_, ?_⟩
    · simp only [write_gpio_state]
      rw [hclear]
      rfl
    · simp only [write_gpio_state]
      rw [hset]
      rfl
    · intro i hi hne
      simp only [write_gpio_state]
      exact ⟨(hbits i hi hne _).2, (hbits i hi hne _).1⟩
    · simp only [write_gpio_state]
    · intro ack2
      refine ⟨_, rfl, ?_⟩
      simp only [write_gpio_state, clear_pin_idem _ p hp32, set_pin_idem _ p hp32]
  | PCF8574_OUTPUT =>
    refine ⟨_, rfl, ?_, ?_, ?_, ?_, ?_⟩
    · simp only [write_gpio_state]
      rw [hset]
      rfl
    · simp only [write_gpio_state]
      rw [hclear]
      rfl
    · intro i hi hne
      simp only [write_gpio_state]
      exact ⟨(hbits i hi hne _).1, (hbits i hi hne _).2⟩
    · simp only [write_gpio_state]
    · intro ack2
      refine ⟨_, rfl, ?_⟩
      simp only [write_gpio_state, clear_pin_idem _ p hp32, set_pin_idem _ p hp32]

/-- Witness of C19: making pin 9 of the sample expander an output sets its
direction bit and clears its port bit. -/
theorem pin_mode_spec_witness :
    ∃ r, pin_mode_ Sample.expander 9 PCF8574Mode.PCF8574_OUTPUT true = some r ∧
      r.1.ddr_mask_.testBit 9 = true ∧ r.1.port_mask_.testBit 9 = false ∧
      r.1.ddr_mask_.testBit 0 = Sample.expander.ddr_mask_.testBit 0 :=
  (pin_mode_spec Sample.expander 9 PCF8574Mode.PCF8574_OUTPUT true (by decide)
    (fun _ h => PCF8574Mode.noConfusion h)).imp
    (fun _ h => ⟨h.1, h.2.1.trans (by decide), h.2.2.1.trans (by decide),
      (h.2.2.2.1 0 (by decide) (by decide)).1⟩)

/-- The component after `digital_write_`. -/
theorem digital_write_state (c : PCF8574Component) (p : Nat) (v ack : Bool) :
    (digital_write_ c p v ack).1 =
      { c with port_mask_ :=
          if v then to_uint16 (c.port_mask_ ||| bit_of_pin p)
          else to_uint16 (c.port_mask_ &&& int_not (bit_of_pin p)) } := by
  unfold digital_write_
  cases v <;> simp [write_gpio_state]

/-- Bits of `port_mask_` after `digital_write_`. -/
theorem digital_write_testBit (c : PCF8574Component) (p : Nat) (v ack : Bool) (hp : p < 32)
    (i : Nat) :
    (digital_write_ c p v ack).1.port_mask_.testBit i =
      (decide (i < 16) && (if decide (p = i) then v else c.port_mask_.testBit i)) := by
  rw [digital_write_state]
  cases v
  · simp only [Bool.false_eq_true, if_false]
    rw [testBit_clear_pin _ p i hp]
    cases decide (p = i) <;> simp
  · simp only [if_true]
    rw [testBit_set_pin _ p i hp]
    cases decide (p = i) <;> simp

/-- C20: for every pin `p < 16` and every `v`, `digital_write_ p v` makes bit `p`
of `port_mask_` equal to `v` and leaves the other bits of `port_mask_`, the
whole `ddr_mask_` and the whole `input_mask_` unchanged; a later
`digital_write_ p w` overrides it, and writes to distinct pins commute. -/
theorem digital_write_spec (c : PCF8574Component) (p : Nat) (v ack : Bool) (hp : p < 16) :
    (digital_write_ c p v ack).1.port_mask_.testBit p = v ∧
    (∀ i, i < 16 → i ≠ p →
      (digital_write_ c p v ack).1.port_mask_.testBit i = c.port_mask_.testBit i) ∧
    (digital_write_ c p v ack).1.ddr_mask_ = c.ddr_mask_ ∧
    (digital_write_ c p v ack).1.input_mask_ = c.input_mask_ ∧
    (∀ w ack2,
      (digital_write_ (digital_write_ c p v ack).1 p w ack2).1.port_mask_.testBit p = w ∧
      (digital_write_ (digital_write_ c p v ack).1 p w ack2).1 =
        (digital_write_ c p w ack2).1) ∧
    (∀ q u ack2, q < 16 → q ≠ p →
      (digital_write_ (digital_write_ c p v ack).1 q u ack2).1 =
        (digital_write_ (digital_write_ c q u ack2).1 p v ack).1) := by
  have hp32 : p < 32 := by omega
  have hstate : ∀ (d e : PCF8574Component), d.address_ = e.address_ → d.pcf8575_ = e.pcf8575_ →
      d.failed_ = e.failed_ → d.ddr_mask_ = e.ddr_mask_ → d.input_mask_ = e.input_mask_ →
      (∀ i, d.port_mask_.testBit i = e.port_mask_.testBit i) → d = e := by
    intro d e h1 h2 h3 h4 h5 h6
    have h7 := Nat.eq_of_testBit_eq h6
    cases d
    cases e
    simp_all
  have hframe : ∀ (d : PCF8574Component) (q : Nat) (u b : Bool),
      (digital_write_ d q u b).1.address_ = d.address_ ∧
      (digital_write_ d q u b).1.pcf8575_ = d.pcf8575_ ∧
      (digital_write_ d q u b).1.failed_ = d.failed_ ∧
      (digital_write_ d q u b).1.ddr_mask_ = d.ddr_mask_ ∧
      (digital_write_ d q u b).1.input_mask_ = d.input_mask_ := by
    intro d q u b
    rw [digital_write_state]
    exact ⟨rfl, rfl, rfl, rfl, rfl⟩
  refine ⟨?_, ?_, (hframe c p v ack).2.2.2.1, (hframe c p v ack).2.2.2.2, ?_, ?_⟩
  · rw [digital_write_testBit c p v ack hp32 p]
    simp [hp]
  · intro i hi hne
    have hne2 : ¬ p = i := fun e => hne e.symm
    rw [digital_write_testBit c p v ack hp32 i]
    simp [hi, hne2]
  · intro w ack2
    refine ⟨?_, ?_⟩
    · rw [digital_write_testBit _ p w ack2 hp32 p]
      simp [hp]
    · apply hstate
      · rw [(hframe _ p w ack2).1, (hframe _ p v ack).1, (hframe _ p w ack2).1]
      · rw [(hframe _ p w ack2).2.1, (hframe _ p v ack).2.1, (hframe _ p w ack2).2.1]
      · rw [(hframe _ p w ack2).2.2.1, (hframe _ p v ack).2.2.1, (hframe _ p w ack2).2.2.1]
      · rw [(hframe _ p w ack2).2.2.2.1, (hframe _ p v ack).2.2.2.1,
          (hframe _ p w ack2).2.2.2.1]
      · rw [(hframe _ p w ack2).2.2.2.2, (hframe _ p v ack).2.2.2.2,
          (hframe _ p w ack2).2.2.2.2]
      · intro i
        rw [digital_write_testBit _ p w ack2 hp32 i, digital_write_testBit _ p v ack hp32 i,
          digital_write_testBit _ p w ack2 hp32 i]
        cases decide (i < 16) <;> cases decide (p = i) <;> simp
  · intro q u ack2 hq hne
    have hq32 : q < 32 := by omega
    apply hstate
    · rw [(hframe _ q u ack2).1, (hframe _ p v ack).1, (hframe _ p v ack).1,
        (hframe _ q u ack2).1]
    · rw [(hframe _ q u ack2).2.1, (hframe _ p v ack).2.1, (hframe _ p v ack).2.1,
        (hframe _ q u ack2).2.1]
    · rw [(hframe _ q u ack2).2.2.1, (hframe _ p v ack).2.2.1, (hframe _ p v ack).2.2.1,
        (hframe _ q u ack2).2.2.1]
    · rw [(hframe _ q u ack2).2.2.2.1, (hframe _ p v ack).2.2.2.1, (hframe _ p v ack).2.2.2.1,
        (hframe _ q u ack2).2.2.2.1]
    · rw [(hframe _ q u ack2).2.2.2.2, (hframe _ p v ack).2.2.2.2, (hframe _ p v ack).2.2.2.2,
        (hframe _ q u ack2).2.2.2.2]
    · intro i
      rw [digital_write_testBit _ q u ack2 hq32 i, digital_write_testBit _ p v ack hp32 i,
        digital_write_testBit _ p v ack hp32 i, digital_write_testBit _ q u ack2 hq32 i]
      by_cases h1 : p = i
      · have h2 : ¬ q = i := fun e => hne (e.trans h1.symm)
        simp [h1, h2]
      · by_cases h2 : q = i
        · simp [h1, h2]
        · simp [h1, h2]

/-- Witness of C20: on the sample expander, writing 1 to pin 4 sets bit 4 of the
port mask, and writes to the pins 4 and 7 commute. -/
theorem digital_write_spec_witness :
    (digital_write_ Sample.expander 4 true true).1.port_mask_.testBit 4 = true ∧
    (digital_write_ (digital_write_ Sample.expander 4 true true).1 7 false true).1 =
      (digital_write_ (digital_write_ Sample.expander 7 false true).1 4 true true).1 :=
  ⟨(digital_write_spec Sample.expander 4 true true (by decide)).1,
    (digital_write_spec Sample.expander 4 true true (by decide)).2.2.2.2.2 7 false true
      (by decide) (by decide)⟩

/-! ## PCA9685: phases of a channel -/

namespace PCA9685OutputComponent

theorem int_to_uint16_natCast (n : Nat) (h : n < 65536) : int_to_uint16 (n : Int) = n := by
  unfold int_to_uint16
  omega

theorem num_channels_eq (c : PCA9685OutputComponent) (h1 : c.min_channel_ ≤ c.max_channel_)
    (h2 : c.max_channel_ ≤ 255) : num_channels c = c.max_channel_ - c.min_channel_ + 1 := by
  unfold num_channels int_to_uint16
  omega

theorem initial_phase_begin_eq_zero (c : PCA9685OutputComponent) (channel : Nat)
    (h1 : c.min_channel_ ≤ channel) (h2 : channel ≤ c.max_channel_)
    (h3 : c.max_channel_ ≤ 255) : initial_phase_begin c channel = 0 := by
  unfold initial_phase_begin
  have hn := num_channels_eq c (by omega) h3
  have hd : int_to_uint16 ((channel : Int) - (c.min_channel_ : Int)) = channel - c.min_channel_ := by
    unfold int_to_uint16
    omega
  rw [hd, hn, Nat.div_eq_of_lt (by omega)]
  rfl

end PCA9685OutputComponent

open PCA9685OutputComponent

/-- C16: for every channel with `min_channel_ ≤ channel ≤ max_channel_` the
expression `uint16_t(channel - min_channel_) / num_channels * 4096` is 0, so
the pair `(phase_begin, phase_end)` of a channel depends on its amount only:
`(0, 4096)` for the amount 0, `(4096, 0)` for an amount of 4096 or more, and
`(0, amount)` otherwise. -/
theorem no_phase_staggering (c : PCA9685OutputComponent) (channel amount : Nat)
    (h1 : c.min_channel_ ≤ channel) (h2 : channel ≤ c.max_channel_)
    (h3 : c.max_channel_ ≤ 255) :
    initial_phase_begin c channel = 0 ∧
    channel_phases c channel amount =
      (if amount = 0 then (0, 4096) else if amount ≥ 4096 then (4096, 0) else (0, amount)) := by
  have h0 := initial_phase_begin_eq_zero c channel h1 h2 h3
  refine ⟨h0, ?_⟩
  unfold channel_phases
  rw [h0]
  by_cases ha : amount = 0
  · simp [ha]
  · by_cases hb : amount ≥ 4096
    · simp [ha, hb]
    · have he : int_to_uint16 (((0 : Nat) : Int) + (amount : Int)) = amount := by
        unfold int_to_uint16
        omega
      simp only [ha, hb, if_false, he]

/-- Witness of C16 on the sample driver (channels 2 to 5): channel 3 with the
amount 1000 gets the pair (0, 1000), channel 4 with the amount 4096 the pair
(4096, 0). -/
theorem no_phase_staggering_witness :
    initial_phase_begin Sample.driver 5 = 0 ∧
    channel_phases Sample.driver 3 1000 = (0, 1000) ∧
    channel_phases Sample.driver 4 4096 = (4096, 0) ∧
    channel_phases Sample.driver 2 0 = (0, 4096) :=
  ⟨(no_phase_staggering Sample.driver 5 0 (by decide) (by decide) (by decide)).1,
    (no_phase_staggering Sample.driver 3 1000 (by decide) (by decide) (by decide)).2,
    (no_phase_staggering Sample.driver 4 4096 (by decide) (by decide) (by decide)).2,
    (no_phase_staggering Sample.driver 2 0 (by decide) (by decide) (by decide)).2⟩

/-! ## PCA9685: the loop -/

namespace PCA9685OutputComponent

theorem take_set_succ (data : List Nat) (k b : Nat) (h : k < data.length) :
    (data.set k b).take (k + 1) = data.take k ++ [b] := by
  induction data generalizing k with
  | nil => simp at h
  | cons x rest ih =>
    cases k with
    | zero => simp
    | succ k =>
      simp only [List.length_cons] at h
      simp [ih k (by omega)]

theorem store_eq (data : List Nat) (len b : Nat) (h : len < data.length) (h2 : len < 255) :
    store data len b = some (data.set len b, len + 1) := by
  unfold store
  rw [if_pos h, Nat.mod_eq_of_lt (by omega)]

theorem phase_bytes_eq (phases : Nat × Nat) :
    phase_bytes phases =
      [phases.1 % 256, phases.1 / 256 % 256, phases.2 % 256, phases.2 / 256 % 256] := by
  unfold phase_bytes
  simp only [PCF8574Component.and_255, Nat.shiftRight_eq_div_pow]

theorem take_four_sets (data : List Nat) (len b0 b1 b2 b3 : Nat) (h : len + 4 ≤ data.length) :
    ((((data.set len b0).set (len + 1) b1).set (len + 2) b2).set (len + 3) b3).take (len + 4) =
      data.take len ++ [b0, b1, b2, b3] := by
  have h1 := take_set_succ data len b0 (by omega)
  have h2 := take_set_succ (data.set len b0) (len + 1) b1 (by simp; omega)
  have h3 := take_set_succ ((data.set len b0).set (len + 1) b1) (len + 2) b2 (by simp; omega)
  have h4 := take_set_succ (((data.set len b0).set (len + 1) b1).set (len + 2) b2) (len + 3) b3
    (by simp; omega)
  show List.take (len + 3 + 1) _ = _
  rw [h4]
  show List.take (len + 2 + 1) _ ++ _ = _
  rw [h3]
  show List.take (len + 1 + 1) _ ++ _ ++ _ = _
  rw [h2, h1]
  simp

theorem four_stores (data : List Nat) (len b0 b1 b2 b3 : Nat) (h : len + 4 ≤ data.length)
    (h2 : len + 4 ≤ 255) :
    ((store data len b0).bind fun s1 =>
      (store s1.1 s1.2 b1).bind fun s2 =>
      (store s2.1 s2.2 b2).bind fun s3 => store s3.1 s3.2 b3) =
      some ((((data.set len b0).set (len + 1) b1).set (len + 2) b2).set (len + 3) b3, len + 4) := by
  rw [store_eq data len b0 (by omega) (by omega)]
  simp only [Option.some_bind]
  rw [store_eq _ (len + 1) b1 (by simp; omega) (by omega)]
  simp only [Option.some_bind]
  rw [store_eq _ (len + 1 + 1) b2 (by simp; omega) (by omega)]
  simp only [Option.some_bind]
  rw [store_eq _ (len + 1 + 1 + 1) b3 (by simp; omega) (by omega)]

/-- One pass through the body stores the four bytes of the channel behind the
bytes stored so far. -/
theorem loop_body_eq (c : PCA9685OutputComponent) (channel : Nat) (data : List Nat) (len : Nat)
    (hpwm : c.pwm_amounts_.length = 16) (hch : channel < 16) (hdata : data.length = 64)
    (hlen : len + 4 ≤ 64) :
    ∃ data2, loop_body c channel data len = some (data2, len + 4) ∧ data2.length = 64 ∧
      data2.take (len + 4) = data.take len ++ encoded_channel c channel := by
  have hget : c.pwm_amounts_[channel]? = some (c.pwm_amounts_.getD channel 0) := by
    rw [List.getD_eq_getElem?_getD, List.getElem?_eq_getElem (by omega)]
    rfl
  unfold loop_body
  rw [hget]
  dsimp only
  rw [four_stores data len _ _ _ _ (by omega) (by omega)]
  refine ⟨_, rfl, by simp [hdata], ?_⟩
  rw [take_four_sets data len _ _ _ _ (by omega)]
  have hb := phase_bytes_eq (channel_phases c channel (c.pwm_amounts_.getD channel 0))
  unfold phase_bytes at hb
  unfold encoded_channel
  rw [hb]

theorem encoded_channels_length (c : PCA9685OutputComponent) (count channel : Nat) :
    (encoded_channels c count channel).length = 4 * count := by
  induction count generalizing channel with
  | zero => rfl
  | succ n ih =>
    simp only [encoded_channels, List.length_append, ih, encoded_channel, List.length_cons,
      List.length_nil]
    omega

/-- The `for` loop over `count` remaining channels terminates within
`count + 1` tests of its condition, stays inside both arrays and stores the
encodings of the channels behind the bytes stored so far. -/
theorem for_loop_eq (c : PCA9685OutputComponent) (hpwm : c.pwm_amounts_.length = 16)
    (hmax : c.max_channel_ ≤ 15) (count : Nat) :
    ∀ (fuel channel : Nat) (data : List Nat) (len : Nat),
      channel + count = c.max_channel_ + 1 → data.length = 64 → len + 4 * count ≤ 64 →
      count + 1 ≤ fuel →
      ∃ data2, for_loop c fuel channel data len = Outcome.finished (data2, len + 4 * count) ∧
        data2.length = 64 ∧
        data2.take (len + 4 * count) = data.take len ++ encoded_channels c count channel := by
  induction count with
  | zero =>
    intro fuel channel data len hch hdata hlen hfuel
    obtain ⟨f, rfl⟩ : ∃ f, fuel = f + 1 := ⟨fuel - 1, by omega⟩
    refine ⟨data, ?_, hdata, ?_⟩
    · unfold for_loop
      rw [if_neg (by omega)]
      rfl
    · simp [encoded_channels]
  | succ n ih =>
    intro fuel channel data len hch hdata hlen hfuel
    obtain ⟨f, rfl⟩ : ∃ f, fuel = f + 1 := ⟨fuel - 1, by omega⟩
    obtain ⟨d1, hbody, hd1, htake1⟩ :=
      loop_body_eq c channel data len hpwm (by omega) hdata (by omega)
    obtain ⟨d2, hloop, hd2, htake2⟩ :=
      ih f (channel + 1) d1 (len + 4) (by omega) hd1 (by omega) (by omega)
    refine ⟨d2, ?_, hd2, ?_⟩
    · unfold for_loop
      rw [if_pos (by omega), hbody]
      simp only
      rw [Nat.mod_eq_of_lt (by omega), hloop]
      have e : len + 4 + 4 * n = len + 4 * (n + 1) := by omega
      rw [e]
    · have e : len + 4 * (n + 1) = len + 4 + 4 * n := by omega
      rw [e, htake2, htake1, List.append_assoc]
      rfl

end PCA9685OutputComponent

/-- C17: `loop` does nothing, and leaves the component as it is, when no channel
was created (`min_channel_ = 0xFF`) or `update_` is false. Otherwise, when
`min_channel_ ≤ max_channel_ ≤ 15`, the `for` loop terminates with every index
inside the 64-byte buffer and the 16 amounts; `loop` writes exactly
`4 * (max_channel_ - min_channel_ + 1) ≤ 64` bytes starting at the register
`0x06 + 4 * min_channel_`, four bytes per channel (low and high byte of
`phase_begin`, low and high byte of `phase_end`), and clears `update_`. -/
theorem loop_spec (c : PCA9685OutputComponent) (data : List Nat) (fuel : Nat) :
    ((c.min_channel_ = 0xFF ∨ c.update_ = false) →
      PCA9685OutputComponent.loop c data fuel = Outcome.finished (c, none)) ∧
    (c.update_ = true → c.min_channel_ ≤ c.max_channel_ → c.max_channel_ ≤ 15 →
      c.pwm_amounts_.length = 16 → data.length = 64 →
      c.max_channel_ - c.min_channel_ + 2 ≤ fuel →
      PCA9685OutputComponent.loop c data fuel =
        Outcome.finished
          ({ c with update_ := false },
            some (WriteBytes.mk (0x06 + 4 * c.min_channel_)
              (encoded_channels c (c.max_channel_ - c.min_channel_ + 1) c.min_channel_))) ∧
      (encoded_channels c (c.max_channel_ - c.min_channel_ + 1) c.min_channel_).length =
        4 * (c.max_channel_ - c.min_channel_ + 1) ∧
      4 * (c.max_channel_ - c.min_channel_ + 1) ≤ 64) := by
  refine ⟨?_, ?_⟩
  · intro h
    unfold PCA9685OutputComponent.loop
    rw [if_pos h]
  · intro hup hmin hmax hpwm hdata hfuel
    obtain ⟨d, hloop, _, htake⟩ :=
      for_loop_eq c hpwm hmax (c.max_channel_ - c.min_channel_ + 1) fuel c.min_channel_ data 0
        (by omega) hdata (by omega) (by omega)
    refine ⟨?_, encoded_channels_length c _ _, by omega⟩
    unfold PCA9685OutputComponent.loop
    rw [if_neg (by simp [hup]; omega), hloop]
    simp only [List.take_zero, List.nil_append] at htake
    simp only [htake]
    rw [Nat.mod_eq_of_lt (by omega)]

/-- Witness of C17 on the sample driver (channels 2 to 5): sixteen bytes go to the
register 14, and a freshly constructed driver writes nothing. -/
theorem loop_spec_witness :
    PCA9685OutputComponent.loop Sample.driver (List.replicate 64 7) 20 =
      Outcome.finished
        ({ Sample.driver with update_ := false },
          some (WriteBytes.mk 14 [0, 0, 0, 16, 0, 0, 232, 3, 0, 16, 0, 0, 0, 0, 0, 16])) ∧
    PCA9685OutputComponent.loop PCA9685OutputComponent.constructed (List.replicate 64 7) 0 =
      Outcome.finished (PCA9685OutputComponent.constructed, none) :=
  ⟨((loop_spec Sample.driver (List.replicate 64 7) 20).2 (by decide) (by decide) (by decide)
      (by decide) (by decide) (by decide)).1.trans (by decide),
    (loop_spec PCA9685OutputComponent.constructed (List.replicate 64 7) 0).1
      (Or.inl (by decide))⟩

end esphomelib
